import Mathlib

/-!
# FitFive backend: shallow embedding and verification

This file embeds the inventory / order / sales-order / purchase-order / cart
request handlers of the FitFive e-commerce backend
(`src/controllers/*.controller.ts`, `src/controllers/inventory.controller.ts`,
`src/middleware/error.middleware.ts`) as pure Lean functions over an explicit
database state, and proves (or refutes) the specification's claims about them.

Modelling conventions:
* MongoDB document ids are natural numbers; a `DB` value carries the documents
  the handlers read and write.  `nextId` is the source of fresh ids.
* JavaScript numbers are embedded as `ℚ` (monetary values) or `ℤ`
  (quantities and stock counters); `Math.round`, `Math.ceil` and `Math.max`
  become their exact counterparts on `ℚ`.
* Each handler takes the current `DB` and a request record and returns the
  database after the handler finishes together with `Except AppError α`:
  `.error e` is a thrown `AppError` (caught by the global error handler), and
  the returned database reflects every write performed before the throw.
* Optional / possibly-absent request fields are `Option` values; a JavaScript
  falsy test on a numeric field also treats `0` as absent where the source
  does (e.g. `parseInt(x) || 10`).
* The availability guards read the `isActive` path of a hydrated inventory
  document; the inventory schema defines no such path, so the read is
  modelled by `readIsActive` (always no value, i.e. falsy).
-/

namespace FitFive

/-- `AppError { message, statusCode }` from `error.middleware.ts`. -/
structure AppError where
  message : String
  statusCode : Int
deriving Repr, DecidableEq

/-- An inventory variant document (`inventory.model.ts`): a size×color variant
of an item with a price, a stock counter, and a SKU/barcode/tags used by
search.  The schema declares no `isActive` path. -/
structure Inventory where
  invId : Nat
  item : Nat
  size : Nat
  color : Nat
  price : ℚ
  stock : Int
  sku : String
  barcode : String
  tags : List String
deriving Repr, DecidableEq

/-- Reading `inventoryItem.isActive` on a hydrated inventory document.  The
inventory schema declares no `isActive` path (and mongoose strict mode is the
default), so the read always yields `undefined`, whose JS truthiness is
`false`: every `if (!inventoryItem.isActive) throw ...` guard in the order,
sales-order and cart controllers therefore always throws. -/
def readIsActive (_ : Inventory) : Bool := false

/-- Order status enum of `order.model.ts`. -/
inductive OrderStatus
  | pending | confirmed | processing | shipped | delivered | cancelled | returned
deriving Repr, DecidableEq

/-- Payment status enum of `order.model.ts`. -/
inductive PaymentStatus
  | pending | paid | failed | refunded | partiallyRefunded
deriving Repr, DecidableEq

/-- An order line item `{ inventoryId, qty }`. -/
structure OrderItem where
  inventoryId : Nat
  qty : Int
deriving Repr, DecidableEq

/-- An order document (`order.model.ts`), restricted to the fields the
embedded handlers read or write. -/
structure Order where
  orderId : Nat
  userId : Nat
  items : List OrderItem
  totalAmount : ℚ
  discount : ℚ
  status : OrderStatus
  paymentStatus : PaymentStatus
  trackingNumber : Option String
  notes : Option String
  cancellationReason : Option String
deriving Repr, DecidableEq

/-- A sales/purchase order line item `{ inventoryId, qty, price }`. -/
structure SalesItem where
  inventoryId : Nat
  qty : Int
  price : ℚ
deriving Repr, DecidableEq

/-- A sales order document (`salesOrder.model.ts`). -/
structure SalesOrder where
  soId : Nat
  userId : Nat
  customerId : Nat
  items : List SalesItem
  totalAmount : ℚ
  totalDiscount : ℚ
deriving Repr, DecidableEq

/-- Purchase order status enum of `purchaseOrder.model.ts`. -/
inductive POStatus
  | pending | confirmed | delivered | cancelled
deriving Repr, DecidableEq

/-- A purchase order document (`purchaseOrder.model.ts`). -/
structure PurchaseOrder where
  poId : Nat
  userId : Nat
  supplierId : Nat
  items : List SalesItem
  totalAmount : ℚ
  discount : ℚ
  poStatus : POStatus
  notes : Option String
deriving Repr, DecidableEq

/-- A cart line item `{ inventoryId, qty }` (`cart.model.ts`). -/
structure CartItem where
  inventoryId : Nat
  qty : Int
deriving Repr, DecidableEq

/-- A per-user cart document (`cart.model.ts`). -/
structure Cart where
  cartUserId : Nat
  items : List CartItem
  totalAmount : ℚ
deriving Repr, DecidableEq

/-- The slice of the document store the embedded handlers touch.  Reference
collections (users, customers, suppliers, catalog items, sizes, colors) are
lists of ids because the handlers only test existence. -/
structure DB where
  users : List Nat
  customers : List Nat
  suppliers : List Nat
  catalogItems : List Nat
  sizes : List Nat
  colors : List Nat
  invs : List Inventory
  orders : List Order
  salesOrders : List SalesOrder
  purchaseOrders : List PurchaseOrder
  carts : List Cart
  nextId : Nat
deriving Repr, DecidableEq

/-- The `{page, limit, total, totalPages}` pagination object of the uniform
response envelope. -/
structure Pagination where
  page : Int
  limit : Int
  total : Int
  totalPages : Int
deriving Repr, DecidableEq

/-! ## Document-store primitives -/

/-- `InventoryModel.findById`. -/
def findInv (invs : List Inventory) (i : Nat) : Option Inventory :=
  invs.find? fun v => v.invId == i

/-- `InventoryModel.findByIdAndUpdate(i, { $inc: { stock: d } })`: an atomic
in-place increment of the stock counter (a no-op when the id is absent). -/
def incStock (invs : List Inventory) (i : Nat) (d : Int) : List Inventory :=
  invs.map fun v => if v.invId == i then { v with stock := v.stock + d } else v

/-- Replacing an inventory document by id (`document.save()`). -/
def setInv (invs : List Inventory) (v : Inventory) : List Inventory :=
  invs.map fun w => if w.invId == v.invId then v else w

/-- The stock-decrement loop run after creating an order / sales order:
`$inc: { stock: -qty }` for each line item, in order. -/
def decrementAll (invs : List Inventory) (items : List OrderItem) : List Inventory :=
  items.foldl (fun a it => incStock a it.inventoryId (-it.qty)) invs

/-- The stock-restore loop run when cancelling an order / deleting a sales
order: `$inc: { stock: qty }` for each line item, in order. -/
def incrementAll (invs : List Inventory) (items : List OrderItem) : List Inventory :=
  items.foldl (fun a it => incStock a it.inventoryId it.qty) invs

/-- Forgetting the price of a sales line item, so sales orders can reuse the
stock-update loops. -/
def toOrderItem (it : SalesItem) : OrderItem := ⟨it.inventoryId, it.qty⟩

/-- The stock counter visible through `findById`, as a partial observation of
the inventory collection. -/
def stockAt (invs : List Inventory) (i : Nat) : Option Int :=
  (findInv invs i).map (·.stock)

/-- Total quantity a line-item list orders against inventory `x`. -/
def qtySum (items : List OrderItem) (x : Nat) : Int :=
  ((items.filter (fun it => it.inventoryId == x)).map (·.qty)).sum

/-! ## JavaScript arithmetic -/

/-- `Math.round(q * 100) / 100`, JavaScript rounding half away from zero
upward: `Math.round x = ⌊x + 1/2⌋`. -/
def jsRound2 (q : ℚ) : ℚ := ((⌊q * 100 + 1 / 2⌋ : ℤ) : ℚ) / 100

/-- `Math.ceil (a / b)` on exact numbers. -/
def jsCeilDiv (a b : Int) : Int := ⌈(a : ℚ) / (b : ℚ)⌉

/-- `parseInt(x) || d`: a missing value, and the falsy number 0, fall back to
the default. -/
def jsOr (v : Option Int) (d : Int) : Int :=
  match v with
  | none => d
  | some x => if x = 0 then d else x

/-- Case-sensitive list-prefix test used by the substring helper below. -/
def leadMatch : List Char → List Char → Bool
  | _, [] => true
  | [], _ :: _ => false
  | a :: as, b :: bs => a == b && leadMatch as bs

/-- Substring test on character lists. -/
def hasSub (l pat : List Char) : Bool :=
  leadMatch l pat ||
    match l with
    | [] => false
    | _ :: tl => hasSub tl pat

/-- JavaScript `hay.includes(pat)`. -/
def strIncludes (hay pat : String) : Bool := hasSub hay.toList pat.toList

/-- `new RegExp(pat, 'i').test(s)` for a pattern without metacharacters:
case-insensitive substring test. -/
def regexTestCI (pat s : String) : Bool :=
  hasSub (s.toList.map Char.toLower) (pat.toList.map Char.toLower)

/-! ## Inventory controller (`inventory.controller.ts`) -/

/-- `POST /api/inventory` request body (`CreateInventoryDto`). -/
structure CreateInventoryReq where
  item : Option Nat
  price : Option ℚ
  size : Option Nat
  color : Option Nat
  stock : Option Int
  sku : String
  barcode : String
  tags : List String
deriving Repr, DecidableEq

/-- `PUT /api/inventory/:id` request (`UpdateInventoryDto` plus the path id). -/
structure UpdateInventoryReq where
  invId : Nat
  item : Option Nat
  price : Option ℚ
  size : Option Nat
  color : Option Nat
  stock : Option Int
  sku : Option String
deriving Repr, DecidableEq

/-- `createInventory`: required-field checks (JavaScript truthiness makes a
price of `0` count as missing), reference checks, the duplicate
(item, size, color) check, then `InventoryModel.create`.  `create` runs the
schema validators, so a negative price or stock is a (non-`AppError`)
validation failure. -/
def createInventory (db : DB) (req : CreateInventoryReq) : DB × Except AppError Inventory :=
  match req.item, req.price, req.size, req.color, req.stock with
  | none, _, _, _, _ => (db, .error ⟨"Item reference is required", 400⟩)
  | some _, none, _, _, _ => (db, .error ⟨"Price is required", 400⟩)
  | some _, some _, none, _, _ => (db, .error ⟨"Size is required", 400⟩)
  | some _, some _, some _, none, _ => (db, .error ⟨"Color is required", 400⟩)
  | some _, some _, some _, some _, none => (db, .error ⟨"Stock is required", 400⟩)
  | some it, some price, some sz, some cl, some stock =>
    if price = 0 then (db, .error ⟨"Price is required", 400⟩)
    else if ¬ db.catalogItems.contains it then (db, .error ⟨"Item not found", 404⟩)
    else if ¬ db.sizes.contains sz then (db, .error ⟨"Size not found", 404⟩)
    else if ¬ db.colors.contains cl then (db, .error ⟨"Color not found", 404⟩)
    else if (db.invs.find? fun v => v.item == it && v.size == sz && v.color == cl).isSome then
      (db, .error ⟨"Inventory item with this combination of item, size, and color already exists", 400⟩)
    else if price < 0 ∨ stock < 0 then
      (db, .error ⟨"Inventory validation failed", 500⟩)
    else
      let inv : Inventory :=
        ⟨db.nextId, it, sz, cl, price, stock, req.sku, req.barcode, req.tags⟩
      ({ db with invs := db.invs ++ [inv], nextId := db.nextId + 1 }, .ok inv)

/-- `updateInventory`: reference checks for the provided fields, the
duplicate-triple check against every other document
(`_id: { $ne: id }`), then `findByIdAndUpdate` with `$set` and
`runValidators: true`. -/
def updateInventory (db : DB) (req : UpdateInventoryReq) : DB × Except AppError Inventory :=
  match findInv db.invs req.invId with
  | none => (db, .error ⟨"Inventory item not found", 404⟩)
  | some inv =>
    if req.item.isSome ∧ ¬ db.catalogItems.contains (req.item.getD 0) then
      (db, .error ⟨"Item not found", 404⟩)
    else if req.size.isSome ∧ ¬ db.sizes.contains (req.size.getD 0) then
      (db, .error ⟨"Size not found", 404⟩)
    else if req.color.isSome ∧ ¬ db.colors.contains (req.color.getD 0) then
      (db, .error ⟨"Color not found", 404⟩)
    else
      let newItem := req.item.getD inv.item
      let newSize := req.size.getD inv.size
      let newColor := req.color.getD inv.color
      if (req.item.isSome ∨ req.size.isSome ∨ req.color.isSome) ∧
          (db.invs.find? fun v =>
            v.item == newItem && v.size == newSize && v.color == newColor &&
              !(v.invId == req.invId)).isSome then
        (db, .error ⟨"Inventory item with this combination of item, size, and color already exists", 400⟩)
      else if req.price.getD inv.price < 0 ∨ req.stock.getD inv.stock < 0 then
        (db, .error ⟨"Inventory validation failed", 500⟩)
      else
        let inv' : Inventory :=
          { inv with
            item := newItem, size := newSize, color := newColor,
            price := req.price.getD inv.price, stock := req.stock.getD inv.stock,
            sku := req.sku.getD inv.sku }
        ({ db with invs := setInv db.invs inv' }, .ok inv')

/-- `PATCH /api/inventory/:id/stock`: replace the stock count, rejecting
negative values. -/
def updateStock (db : DB) (invId : Nat) (stock : Option Int) : DB × Except AppError Inventory :=
  match stock with
  | none => (db, .error ⟨"Stock quantity is required", 400⟩)
  | some s =>
    if s < 0 then (db, .error ⟨"Stock cannot be negative", 400⟩)
    else
      match findInv db.invs invId with
      | none => (db, .error ⟨"Inventory item not found", 404⟩)
      | some inv =>
        let inv' := { inv with stock := s }
        ({ db with invs := setInv db.invs inv' }, .ok inv')

/-- `PATCH /api/inventory/:id/stock/increment`. -/
def incrementStock (db : DB) (invId : Nat) (quantity : Option Int) : DB × Except AppError Inventory :=
  match quantity with
  | none => (db, .error ⟨"Increment quantity is required", 400⟩)
  | some q =>
    if q ≤ 0 then (db, .error ⟨"Increment quantity must be positive", 400⟩)
    else
      match findInv db.invs invId with
      | none => (db, .error ⟨"Inventory item not found", 404⟩)
      | some inv =>
        let inv' := { inv with stock := inv.stock + q }
        ({ db with invs := setInv db.invs inv' }, .ok inv')

/-- `PATCH /api/inventory/:id/stock/decrement`: rejected with a 400 when the
decrement would push the stock below zero, otherwise saved. -/
def decrementStock (db : DB) (invId : Nat) (quantity : Option Int) : DB × Except AppError Inventory :=
  match quantity with
  | none => (db, .error ⟨"Decrement quantity is required", 400⟩)
  | some q =>
    if q ≤ 0 then (db, .error ⟨"Decrement quantity must be positive", 400⟩)
    else
      match findInv db.invs invId with
      | none => (db, .error ⟨"Inventory item not found", 404⟩)
      | some inv =>
        if inv.stock - q < 0 then
          (db, .error ⟨"Cannot decrement stock. Insufficient stock.", 400⟩)
        else
          let inv' := { inv with stock := inv.stock - q }
          ({ db with invs := setInv db.invs inv' }, .ok inv')

/-- `DELETE /api/inventory/:id`. -/
def deleteInventory (db : DB) (invId : Nat) : DB × Except AppError Unit :=
  match findInv db.invs invId with
  | none => (db, .error ⟨"Inventory item not found", 404⟩)
  | some _ =>
    ({ db with invs := db.invs.filter fun v => !(v.invId == invId) }, .ok ())

/-- `GET /api/inventory` query parameters. -/
structure GetInventoryReq where
  page : Option Int
  limit : Option Int
  search : Option String
deriving Repr, DecidableEq

/-- The `$or` regex filter `getAllInventory` builds from `search`. -/
def invSearchMatch (search : Option String) (v : Inventory) : Bool :=
  match search with
  | none => true
  | some s => regexTestCI s v.sku || regexTestCI s v.barcode || v.tags.any (regexTestCI s)

/-- `getAllInventory`: `countDocuments(filter)` then a skip/limit page of
`find(filter)` (the sort is not modelled), with
`totalPages = Math.ceil(total / limit)`. -/
def getAllInventory (db : DB) (req : GetInventoryReq) :
    DB × Except AppError (List Inventory × Pagination) :=
  let pageNum : Int := req.page.getD 1
  let limitNum : Int := req.limit.getD 10
  let matching := db.invs.filter (invSearchMatch req.search)
  let total : Int := matching.length
  let data := (matching.drop ((pageNum - 1) * limitNum).toNat).take limitNum.toNat
  (db, .ok (data, ⟨pageNum, limitNum, total, jsCeilDiv total limitNum⟩))

/-! ## Order controller (`order.controller.ts`) -/

/-- `POST /api/orders` request: the authenticated user (absent when the token
middleware put no user on the request), the line items, and the discount
(defaulting to 0). -/
structure CreateOrderReq where
  userId : Option Nat
  items : List OrderItem
  discount : ℚ
  notes : Option String
deriving Repr, DecidableEq

/-- The per-item validation loop of `createOrder`: quantity at least 1, the
inventory document exists, the availability guard (which always throws, see
`readIsActive`), and the stock check.  Returns the validated items and the
accumulated `totalAmount`. -/
def validateCreateItems (invs : List Inventory) :
    List OrderItem → Except AppError (List OrderItem × ℚ)
  | [] => .ok ([], 0)
  | r :: rest =>
    if r.qty < 1 then .error ⟨"Quantity must be at least 1", 400⟩
    else
      match findInv invs r.inventoryId with
      | none => .error ⟨"Inventory item not found", 404⟩
      | some inv =>
        if readIsActive inv = false then .error ⟨"Item is not available", 400⟩
        else if inv.stock < r.qty then .error ⟨"Insufficient stock", 400⟩
        else
          match validateCreateItems invs rest with
          | .error e => .error e
          | .ok (its, amt) => .ok (⟨r.inventoryId, r.qty⟩ :: its, inv.price * r.qty + amt)

/-- All checks of `createOrder` that precede the first write. -/
def createOrderCheck (db : DB) (req : CreateOrderReq) :
    Except AppError (Nat × List OrderItem × ℚ) :=
  match req.userId with
  | none => .error ⟨"User authentication required", 401⟩
  | some uid =>
    if ¬ db.users.contains uid then .error ⟨"User not found", 404⟩
    else if req.items.isEmpty then .error ⟨"Order must contain at least one item", 400⟩
    else
      match validateCreateItems db.invs req.items with
      | .error e => .error e
      | .ok (vitems, total) =>
        if req.discount < 0 ∨ req.discount > total then .error ⟨"Invalid discount amount", 400⟩
        else .ok (uid, vitems, total)

/-- `createOrder`: validate, save the new order (status `pending`, payment
status `pending`), then run the stock-decrement loop over the validated
items. -/
def createOrder (db : DB) (req : CreateOrderReq) : DB × Except AppError Order :=
  match createOrderCheck db req with
  | .error e => (db, .error e)
  | .ok (uid, vitems, total) =>
    let o : Order :=
      ⟨db.nextId, uid, vitems, total, req.discount, .pending, .pending, none, req.notes, none⟩
    ({ db with
        orders := db.orders ++ [o],
        invs := decrementAll db.invs vitems,
        nextId := db.nextId + 1 }, .ok o)

/-- `Order.findById`. -/
def findOrder (orders : List Order) (i : Nat) : Option Order :=
  orders.find? fun o => o.orderId == i

/-- Saving an order document back (`order.save()`). -/
def setOrder (orders : List Order) (o : Order) : List Order :=
  orders.map fun x => if x.orderId == o.orderId then o else x

/-- `POST /api/orders/:id/cancel` request. -/
structure CancelOrderReq where
  orderId : Nat
  userId : Nat
  isAdmin : Bool
  cancellationReason : Option String
deriving Repr, DecidableEq

/-- `cancelOrder`: ownership and status checks, then mark the order
cancelled, run the stock-restore loop, and flip a paid payment status to
refunded. -/
def cancelOrder (db : DB) (req : CancelOrderReq) : DB × Except AppError Order :=
  match findOrder db.orders req.orderId with
  | none => (db, .error ⟨"Order not found", 404⟩)
  | some o =>
    if o.userId ≠ req.userId ∧ req.isAdmin = false then
      (db, .error ⟨"Not authorized to cancel this order", 403⟩)
    else if ¬ (o.status = .pending ∨ o.status = .confirmed) then
      (db, .error ⟨"Order cannot be cancelled", 400⟩)
    else
      let o1 := { o with
        status := OrderStatus.cancelled,
        cancellationReason := some (req.cancellationReason.getD "Cancelled by user") }
      let db1 := { db with
        orders := setOrder db.orders o1,
        invs := incrementAll db.invs o.items }
      if o1.paymentStatus = .paid then
        let o2 := { o1 with paymentStatus := PaymentStatus.refunded }
        ({ db1 with orders := setOrder db1.orders o2 }, .ok o2)
      else (db1, .ok o1)

/-- `GET /api/orders` query parameters plus the authenticated user. -/
structure GetOrdersReq where
  page : Option Int
  limit : Option Int
  status : Option OrderStatus
  paymentStatus : Option PaymentStatus
  userId : Nat
  isAdmin : Bool
deriving Repr, DecidableEq

/-- The query object `getAllOrders` builds: non-admins only see their own
orders, and the optional status / payment-status filters. -/
def orderMatches (req : GetOrdersReq) (o : Order) : Bool :=
  (req.isAdmin || o.userId == req.userId) &&
    (match req.status with | none => true | some s => o.status == s) &&
    (match req.paymentStatus with | none => true | some p => o.paymentStatus == p)

/-- `getAllOrders`: page clamped to at least 1, limit clamped to `[1, 100]`,
`total = countDocuments(query)`, `totalPages = Math.ceil(total / limit)`. -/
def getAllOrders (db : DB) (req : GetOrdersReq) :
    DB × Except AppError (List Order × Pagination) :=
  let pageNum : Int := max 1 (req.page.getD 1)
  let limitNum : Int := min 100 (max 1 (req.limit.getD 10))
  let matching := db.orders.filter (orderMatches req)
  let total : Int := matching.length
  let data := (matching.drop ((pageNum - 1) * limitNum).toNat).take limitNum.toNat
  (db, .ok (data, ⟨pageNum, limitNum, total, jsCeilDiv total limitNum⟩))

/-- `PUT /api/orders/:id/status` request (admin route): each field is only
applied when provided and truthy. -/
structure UpdateOrderStatusReq where
  orderId : Nat
  status : Option OrderStatus
  trackingNumber : Option String
  notes : Option String
deriving Repr, DecidableEq

/-- `updateOrderStatus`: load the order, overwrite the provided fields, and
save.  No stock compensation happens here, whatever the new status. -/
def updateOrderStatus (db : DB) (req : UpdateOrderStatusReq) : DB × Except AppError Order :=
  match findOrder db.orders req.orderId with
  | none => (db, .error ⟨"Order not found", 404⟩)
  | some o =>
    let o' := { o with
      status := req.status.getD o.status,
      trackingNumber := match req.trackingNumber with
        | none => o.trackingNumber
        | some t => some t,
      notes := match req.notes with
        | none => o.notes
        | some n => some n }
    ({ db with orders := setOrder db.orders o' }, .ok o')

/-! ## Sales order controller (`salesOrder.controller.ts`) -/

/-- `POST /api/sales-orders` request (`CreateSalesOrderDto` plus the
authenticated user). -/
structure CreateSalesOrderReq where
  userId : Nat
  customerId : Option Nat
  items : List SalesItem
  totalDiscount : ℚ
deriving Repr, DecidableEq

/-- The per-item validation loop of `createSalesOrder`: existence, the
always-throwing availability guard (see `readIsActive`), sufficient stock,
quantity at least 1, non-negative price — in that order. -/
def validateSalesItems (invs : List Inventory) : List SalesItem → Except AppError Unit
  | [] => .ok ()
  | it :: rest =>
    match findInv invs it.inventoryId with
    | none => .error ⟨"Inventory item not found", 404⟩
    | some inv =>
      if readIsActive inv = false then .error ⟨"Inventory item is not active", 400⟩
      else if inv.stock < it.qty then .error ⟨"Insufficient stock", 400⟩
      else if it.qty < 1 then .error ⟨"Quantity must be at least 1", 400⟩
      else if it.price < 0 then .error ⟨"Price must be non-negative", 400⟩
      else validateSalesItems invs rest

/-- `items.reduce((sum, item) => sum + item.qty * item.price, 0)`. -/
def salesSubtotal (items : List SalesItem) : ℚ :=
  items.foldl (fun s it => s + (it.qty : ℚ) * it.price) 0

/-- `createSalesOrder`: required fields, customer existence, item validation,
then create the order and run the stock-decrement loop. -/
def createSalesOrder (db : DB) (req : CreateSalesOrderReq) : DB × Except AppError SalesOrder :=
  match req.customerId with
  | none => (db, .error ⟨"Customer ID is required", 400⟩)
  | some cid =>
    if req.items.isEmpty then (db, .error ⟨"Items are required", 400⟩)
    else if ¬ db.customers.contains cid then (db, .error ⟨"Customer not found", 404⟩)
    else
      match validateSalesItems db.invs req.items with
      | .error e => (db, .error e)
      | .ok _ =>
        let totalAmount := max 0 (salesSubtotal req.items - req.totalDiscount)
        let so : SalesOrder :=
          ⟨db.nextId, req.userId, cid, req.items, totalAmount, req.totalDiscount⟩
        ({ db with
            salesOrders := db.salesOrders ++ [so],
            invs := decrementAll db.invs (req.items.map toOrderItem),
            nextId := db.nextId + 1 }, .ok so)

/-- `SalesOrderModel.findOne({ _id: id, userId })`. -/
def findSO (sos : List SalesOrder) (i : Nat) (uid : Nat) : Option SalesOrder :=
  sos.find? fun s => s.soId == i && s.userId == uid

/-- Saving a sales order document back. -/
def setSO (sos : List SalesOrder) (so : SalesOrder) : List SalesOrder :=
  sos.map fun x => if x.soId == so.soId then so else x

/-- `GET /api/sales-orders` query parameters plus the authenticated user. -/
structure GetSalesOrdersReq where
  userId : Nat
  page : Option Int
  limit : Option Int
  customerId : Option Nat
deriving Repr, DecidableEq

/-- The query `getSalesOrders` builds: always scoped to the user, optionally
to a customer. -/
def salesOrderMatches (req : GetSalesOrdersReq) (s : SalesOrder) : Bool :=
  s.userId == req.userId &&
    (match req.customerId with | none => true | some c => s.customerId == c)

/-- `getSalesOrders`: `page = parseInt(..) || 1`, `limit = parseInt(..) || 10`,
`total = countDocuments(query)`, `totalPages = Math.ceil(total / limit)`. -/
def getSalesOrders (db : DB) (req : GetSalesOrdersReq) :
    DB × Except AppError (List SalesOrder × Pagination) :=
  let page := jsOr req.page 1
  let limit := jsOr req.limit 10
  let matching := db.salesOrders.filter (salesOrderMatches req)
  let total : Int := matching.length
  let data := (matching.drop ((page - 1) * limit).toNat).take limit.toNat
  (db, .ok (data, ⟨page, limit, total, jsCeilDiv total limit⟩))

/-- `PATCH /api/sales-orders/:id` request (`UpdateSalesOrderDto`). -/
structure UpdateSalesOrderReq where
  soId : Nat
  userId : Nat
  customerId : Option Nat
  items : Option (List SalesItem)
  totalDiscount : Option ℚ
deriving Repr, DecidableEq

/-- The new-items validation loop of `updateSalesOrder` (no stock check
here): existence, the always-throwing availability guard (see
`readIsActive`), quantity at least 1, non-negative price. -/
def validateUpdateItems (invs : List Inventory) : List SalesItem → Except AppError Unit
  | [] => .ok ()
  | it :: rest =>
    match findInv invs it.inventoryId with
    | none => .error ⟨"Inventory item not found", 404⟩
    | some inv =>
      if readIsActive inv = false then .error ⟨"Inventory item is not active", 400⟩
      else if it.qty < 1 then .error ⟨"Quantity must be at least 1", 400⟩
      else if it.price < 0 then .error ⟨"Price must be non-negative", 400⟩
      else validateUpdateItems invs rest

/-- The stock-availability loop `updateSalesOrder` runs after reversing the
original items' stock: each new item is re-fetched and its quantity compared
with the (already restored) stock. -/
def checkStockAll (invs : List Inventory) : List SalesItem → Except AppError Unit
  | [] => .ok ()
  | it :: rest =>
    match findInv invs it.inventoryId with
    | none => .error ⟨"Internal Server Error", 500⟩
    | some inv =>
      if inv.stock < it.qty then .error ⟨"Insufficient stock", 400⟩
      else checkStockAll invs rest

/-- The item-validation step of `updateSalesOrder`'s pre-write checks. -/
def updateSOCheckItems (db : DB) (req : UpdateSalesOrderReq) (so : SalesOrder) :
    Except AppError SalesOrder :=
  match req.items with
  | some its =>
    if its.isEmpty then .ok so
    else
      match validateUpdateItems db.invs its with
      | .error e => .error e
      | .ok _ => .ok so
  | none => .ok so

/-- The discount step of `updateSalesOrder`'s pre-write checks. -/
def updateSOCheckDiscount (db : DB) (req : UpdateSalesOrderReq) (so : SalesOrder) :
    Except AppError SalesOrder :=
  match req.totalDiscount with
  | some d =>
    if d < 0 then .error ⟨"Total discount cannot be negative", 400⟩
    else updateSOCheckItems db req { so with totalDiscount := d }
  | none => updateSOCheckItems db req so

/-- The pre-write checks of `updateSalesOrder`: customer existence, the
non-negative discount check, and — when new items are provided — their
validation loop.  Returns the order with customer/discount applied
(in memory; it is only saved at the end of the handler). -/
def updateSOCheck (db : DB) (req : UpdateSalesOrderReq) (so : SalesOrder) :
    Except AppError SalesOrder :=
  match req.customerId with
  | some cid =>
    if ¬ db.customers.contains cid then .error ⟨"Customer not found", 404⟩
    else updateSOCheckDiscount db req { so with customerId := cid }
  | none => updateSOCheckDiscount db req so

/-- The final step of `updateSalesOrder`: recompute
`totalAmount = max 0 (subtotal - totalDiscount)` and save the order. -/
def commitSO (db : DB) (invs' : List Inventory) (so : SalesOrder) :
    DB × Except AppError SalesOrder :=
  let so' := { so with totalAmount := max 0 (salesSubtotal so.items - so.totalDiscount) }
  ({ db with invs := invs', salesOrders := setSO db.salesOrders so' }, .ok so')

/-- `updateSalesOrder`.  When new items are provided, the source text first
writes the stock reversal of the original items and only then checks stock
availability for the new items — but the validation loop that precedes the
reversal contains the always-throwing availability guard, so the reversal
and everything after it are dead code. -/
def updateSalesOrder (db : DB) (req : UpdateSalesOrderReq) : DB × Except AppError SalesOrder :=
  match findSO db.salesOrders req.soId req.userId with
  | none => (db, .error ⟨"Sales order not found", 404⟩)
  | some so =>
    match updateSOCheck db req so with
    | .error e => (db, .error e)
    | .ok so2 =>
      match req.items with
      | some its =>
        if its.isEmpty then commitSO db db.invs so2
        else
          let invs1 := incrementAll db.invs (so.items.map toOrderItem)
          match checkStockAll invs1 its with
          | .error e => ({ db with invs := invs1 }, .error e)
          | .ok _ =>
            let invs2 := decrementAll invs1 (its.map toOrderItem)
            commitSO db invs2 { so2 with items := its }
      | none => commitSO db db.invs so2

/-- `DELETE /api/sales-orders/:id`: restore the stock of every line item,
then delete the document. -/
def deleteSalesOrder (db : DB) (soId userId : Nat) : DB × Except AppError Unit :=
  match findSO db.salesOrders soId userId with
  | none => (db, .error ⟨"Sales order not found", 404⟩)
  | some so =>
    ({ db with
        invs := incrementAll db.invs (so.items.map toOrderItem),
        salesOrders := db.salesOrders.filter fun s => !(s.soId == soId) }, .ok ())

/-! ## Purchase order controller (`purchaseOrder.controller.ts`) -/

/-- `POST /api/purchase-orders` request (`CreatePurchaseOrderDto`). -/
structure CreatePurchaseOrderReq where
  userId : Nat
  supplierId : Option Nat
  items : List SalesItem
  discount : ℚ
  poStatus : POStatus
  notes : Option String
deriving Repr, DecidableEq

/-- The per-item validation loop of `createPurchaseOrder`: existence,
quantity at least 1, non-negative price.  No stock check. -/
def validatePurchaseItems (invs : List Inventory) : List SalesItem → Except AppError Unit
  | [] => .ok ()
  | it :: rest =>
    match findInv invs it.inventoryId with
    | none => .error ⟨"Inventory item not found", 404⟩
    | some _ =>
      if it.qty < 1 then .error ⟨"Quantity must be at least 1", 400⟩
      else if it.price < 0 then .error ⟨"Price must be non-negative", 400⟩
      else validatePurchaseItems invs rest

/-- `createPurchaseOrder`: validates and creates the purchase order document.
It performs no inventory-stock update at all. -/
def createPurchaseOrder (db : DB) (req : CreatePurchaseOrderReq) :
    DB × Except AppError PurchaseOrder :=
  match req.supplierId with
  | none => (db, .error ⟨"Supplier ID is required", 400⟩)
  | some sid =>
    if req.items.isEmpty then (db, .error ⟨"Items are required", 400⟩)
    else if ¬ db.suppliers.contains sid then (db, .error ⟨"Supplier not found", 404⟩)
    else
      match validatePurchaseItems db.invs req.items with
      | .error e => (db, .error e)
      | .ok _ =>
        let totalAmount := max 0 (salesSubtotal req.items - req.discount)
        let po : PurchaseOrder :=
          ⟨db.nextId, req.userId, sid, req.items, totalAmount, req.discount,
            req.poStatus, req.notes⟩
        ({ db with purchaseOrders := db.purchaseOrders ++ [po], nextId := db.nextId + 1 },
          .ok po)

/-- `DELETE /api/purchase-orders/:id`
(`findOneAndDelete({ _id: id, userId })`): deletes the document and performs
no inventory-stock update. -/
def deletePurchaseOrder (db : DB) (poId userId : Nat) : DB × Except AppError Unit :=
  match db.purchaseOrders.find? (fun p => p.poId == poId && p.userId == userId) with
  | none => (db, .error ⟨"Purchase order not found", 404⟩)
  | some _ =>
    ({ db with purchaseOrders := db.purchaseOrders.filter fun p => !(p.poId == poId && p.userId == userId) },
      .ok ())

/-! ## Cart controller (`cart.controller.ts`) -/

/-- `CartModel.findOne({ userId })`. -/
def findCart (carts : List Cart) (uid : Nat) : Option Cart :=
  carts.find? fun c => c.cartUserId == uid

/-- `cart.save()`: replace the user's cart if it exists, insert it
otherwise. -/
def saveCart (carts : List Cart) (c : Cart) : List Cart :=
  if (findCart carts c.cartUserId).isSome then
    carts.map fun x => if x.cartUserId == c.cartUserId then c else x
  else carts ++ [c]

/-- `calculateCartTotal`: the sum of `price × qty` over the cart's items
(an item whose inventory no longer exists contributes nothing), rounded to
two decimal places. -/
def calculateCartTotal (invs : List Inventory) (items : List CartItem) : ℚ :=
  jsRound2 (items.foldl
    (fun t it =>
      match findInv invs it.inventoryId with
      | some inv => t + inv.price * it.qty
      | none => t) 0)

/-- `POST /api/cart/add` request. -/
structure AddToCartReq where
  userId : Nat
  inventoryId : Option Nat
  qty : Option Int
deriving Repr, DecidableEq

/-- `addToCart`: availability guard (which always throws, see
`readIsActive`) and stock check, merge with an existing line item
(re-checking the merged quantity against stock), then recompute the total
and save. -/
def addToCart (db : DB) (req : AddToCartReq) : DB × Except AppError Cart :=
  match req.inventoryId, req.qty with
  | none, _ => (db, .error ⟨"Inventory ID and quantity are required", 400⟩)
  | some _, none => (db, .error ⟨"Inventory ID and quantity are required", 400⟩)
  | some invId, some qty =>
    if qty = 0 then (db, .error ⟨"Inventory ID and quantity are required", 400⟩)
    else if qty < 1 then (db, .error ⟨"Quantity must be at least 1", 400⟩)
    else
      match findInv db.invs invId with
      | none => (db, .error ⟨"Inventory item not found", 404⟩)
      | some inv =>
        if readIsActive inv = false then (db, .error ⟨"This item is not available", 400⟩)
        else if inv.stock < qty then (db, .error ⟨"Only some items available in stock", 400⟩)
        else
          let cart := (findCart db.carts req.userId).getD ⟨req.userId, [], 0⟩
          match cart.items.find? (fun it => it.inventoryId == invId) with
          | some existing =>
            let newQty := existing.qty + qty
            if inv.stock < newQty then
              (db, .error ⟨"Only some items available in stock", 400⟩)
            else
              let items' := cart.items.map fun it =>
                if it.inventoryId == invId then { it with qty := newQty } else it
              let c' : Cart := ⟨req.userId, items', calculateCartTotal db.invs items'⟩
              ({ db with carts := saveCart db.carts c' }, .ok c')
          | none =>
            let items' := cart.items ++ [⟨invId, qty⟩]
            let c' : Cart := ⟨req.userId, items', calculateCartTotal db.invs items'⟩
            ({ db with carts := saveCart db.carts c' }, .ok c')

/-- `POST /api/cart/bulk-add` request. -/
structure BulkAddReq where
  userId : Nat
  items : List CartItem
deriving Repr, DecidableEq

/-- The first validation loop of `bulkAddToCart`: every entry needs an id and
a truthy quantity of at least 1. -/
def bulkCheckShape : List CartItem → Except AppError Unit
  | [] => .ok ()
  | it :: rest =>
    if it.qty = 0 then .error ⟨"Each item must have inventoryId and qty", 400⟩
    else if it.qty < 1 then .error ⟨"Quantity must be at least 1 for all items", 400⟩
    else bulkCheckShape rest

/-- The inventory-availability loop of `bulkAddToCart`: every referenced
inventory exists, the always-throwing availability guard (see
`readIsActive`), and the stock check. -/
def bulkCheckStock (invs : List Inventory) : List CartItem → Except AppError Unit
  | [] => .ok ()
  | it :: rest =>
    match findInv invs it.inventoryId with
    | none => .error ⟨"Inventory item not found", 404⟩
    | some inv =>
      if readIsActive inv = false then .error ⟨"Item is not available", 400⟩
      else if inv.stock < it.qty then .error ⟨"Only some items available in stock", 400⟩
      else bulkCheckStock invs rest

/-- The merge loop of `bulkAddToCart`, mutating the in-memory item list:
an already-present inventory gets its quantity increased (re-checked against
stock), a new one is appended. -/
def bulkMerge (invs : List Inventory) (acc : List CartItem) :
    List CartItem → Except AppError (List CartItem)
  | [] => .ok acc
  | it :: rest =>
    match acc.find? (fun x => x.inventoryId == it.inventoryId) with
    | some existing =>
      let newQty := existing.qty + it.qty
      match findInv invs it.inventoryId with
      | none => .error ⟨"Only some items available in stock", 400⟩
      | some inv =>
        if inv.stock < newQty then .error ⟨"Only some items available in stock", 400⟩
        else
          bulkMerge invs
            (acc.map fun x => if x.inventoryId == it.inventoryId then { x with qty := newQty } else x)
            rest
    | none => bulkMerge invs (acc ++ [⟨it.inventoryId, it.qty⟩]) rest

/-- `bulkAddToCart`: validate all entries, merge them into the cart, then
recompute the total and save.  All failures precede the single save. -/
def bulkAddToCart (db : DB) (req : BulkAddReq) : DB × Except AppError Cart :=
  if req.items.isEmpty then
    (db, .error ⟨"Items array is required and must not be empty", 400⟩)
  else
    match bulkCheckShape req.items with
    | .error e => (db, .error e)
    | .ok _ =>
      match bulkCheckStock db.invs req.items with
      | .error e => (db, .error e)
      | .ok _ =>
        let cart := (findCart db.carts req.userId).getD ⟨req.userId, [], 0⟩
        match bulkMerge db.invs cart.items req.items with
        | .error e => (db, .error e)
        | .ok items' =>
          let c' : Cart := ⟨req.userId, items', calculateCartTotal db.invs items'⟩
          ({ db with carts := saveCart db.carts c' }, .ok c')

/-- `PATCH /api/cart/items/:inventoryId` request. -/
structure UpdateCartItemReq where
  userId : Nat
  inventoryId : Nat
  qty : Option Int
deriving Repr, DecidableEq

/-- `updateCartItem`: set the line item's quantity (checked against stock),
recompute the total and save. -/
def updateCartItem (db : DB) (req : UpdateCartItemReq) : DB × Except AppError Cart :=
  match req.qty with
  | none => (db, .error ⟨"Quantity must be at least 1", 400⟩)
  | some qty =>
    if qty < 1 then (db, .error ⟨"Quantity must be at least 1", 400⟩)
    else
      match findInv db.invs req.inventoryId with
      | none => (db, .error ⟨"Inventory item not found", 404⟩)
      | some inv =>
        if readIsActive inv = false then (db, .error ⟨"This item is not available", 400⟩)
        else if inv.stock < qty then (db, .error ⟨"Only some items available in stock", 400⟩)
        else
          match findCart db.carts req.userId with
          | none => (db, .error ⟨"Cart not found", 404⟩)
          | some cart =>
            if (cart.items.find? fun it => it.inventoryId == req.inventoryId).isNone then
              (db, .error ⟨"Item not found in cart", 404⟩)
            else
              let items' := cart.items.map fun it =>
                if it.inventoryId == req.inventoryId then { it with qty := qty } else it
              let c' : Cart := ⟨req.userId, items', calculateCartTotal db.invs items'⟩
              ({ db with carts := saveCart db.carts c' }, .ok c')

/-- `DELETE /api/cart/items/:inventoryId`: remove the line item, recompute
the total and save. -/
def removeFromCart (db : DB) (userId inventoryId : Nat) : DB × Except AppError Cart :=
  match findCart db.carts userId with
  | none => (db, .error ⟨"Cart not found", 404⟩)
  | some cart =>
    if (cart.items.find? fun it => it.inventoryId == inventoryId).isNone then
      (db, .error ⟨"Item not found in cart", 404⟩)
    else
      let items' := cart.items.filter fun it => !(it.inventoryId == inventoryId)
      let c' : Cart := ⟨userId, items', calculateCartTotal db.invs items'⟩
      ({ db with carts := saveCart db.carts c' }, .ok c')

/-- `DELETE /api/cart`: empty the items and set the total to 0. -/
def clearCart (db : DB) (userId : Nat) : DB × Except AppError Cart :=
  match findCart db.carts userId with
  | none => (db, .error ⟨"Cart not found", 404⟩)
  | some _ =>
    let c' : Cart := ⟨userId, [], 0⟩
    ({ db with carts := saveCart db.carts c' }, .ok c')

/-! ## Global error handler (`error.middleware.ts`) -/

/-- The uniform error body `{success, message, error, statusCode}`. -/
structure ErrorResponse where
  success : Bool
  message : String
  error : String
  statusCode : Int
deriving Repr, DecidableEq

/-- The classification the error handler performs on the thrown value:
an `AppError`, an error whose `name` is `MulterError`, an error whose message
includes `Invalid file type`, or anything else. -/
inductive JsError
  | appError (message : String) (statusCode : Int)
  | multerError (message : String)
  | invalidFileType (message : String)
  | other (message : String)
deriving Repr, DecidableEq

/-- The specific messages the handler substitutes for Multer errors. -/
def multerDetail (m : String) : String :=
  if strIncludes m "File too large" then "File size exceeds the maximum allowed limit"
  else if strIncludes m "Too many files" then "Too many files uploaded"
  else if strIncludes m "Unexpected field" then "Unexpected field in form data"
  else m

/-- `errorHandler`: maps a thrown error to the HTTP status and the JSON
body.  `AppError`s keep their status code and message; everything
unrecognized becomes a 500 `Internal Server Error`. -/
def errorHandler : JsError → Int × ErrorResponse
  | .appError m sc => (sc, ⟨false, m, m, sc⟩)
  | .multerError m => (400, ⟨false, "File Upload Error", multerDetail m, 400⟩)
  | .invalidFileType m => (400, ⟨false, "Invalid File Type", m, 400⟩)
  | .other m => (500, ⟨false, "Internal Server Error", m, 500⟩)

/-! ## Wellformedness of the document store -/

/-- Every inventory stock counter is non-negative (the schema-level
`min: [0]` invariant of `inventory.model.ts`). -/
def stocksNonneg (db : DB) : Prop := ∀ v ∈ db.invs, 0 ≤ v.stock

instance (db : DB) : Decidable (stocksNonneg db) := by
  unfold stocksNonneg; infer_instance

/-- Document ids are unique and below the fresh-id counter, and persisted
order / sales-order line items carry the `qty ≥ 1` the controllers and the
order schema enforce on creation. -/
def WF (db : DB) : Prop :=
  (db.invs.map (·.invId)).Nodup ∧
  (∀ v ∈ db.invs, v.invId < db.nextId) ∧
  (∀ o ∈ db.orders, o.orderId < db.nextId) ∧
  (∀ s ∈ db.salesOrders, s.soId < db.nextId) ∧
  (∀ p ∈ db.purchaseOrders, p.poId < db.nextId) ∧
  (∀ o ∈ db.orders, ∀ it ∈ o.items, 1 ≤ it.qty) ∧
  (∀ s ∈ db.salesOrders, ∀ it ∈ s.items, 1 ≤ it.qty)

instance (db : DB) : Decidable (WF db) := by
  unfold WF; infer_instance

/-! ## Store-primitive lemmas -/

lemma findInv_eq_some {invs : List Inventory} {x : Nat} {v : Inventory}
    (h : findInv invs x = some v) : v.invId = x ∧ v ∈ invs := by
  unfold findInv at h
  have h1 := List.find?_some h
  have h2 := List.mem_of_find?_eq_some h
  exact ⟨by simpa using h1, h2⟩

lemma findInv_incStock (invs : List Inventory) (j : Nat) (d : Int) (x : Nat) :
    findInv (incStock invs j d) x =
      (findInv invs x).map
        (fun v => if v.invId == j then { v with stock := v.stock + d } else v) := by
  unfold findInv incStock
  rw [List.find?_map]
  have hp : ((fun v : Inventory => v.invId == x) ∘
      fun v => if v.invId == j then { v with stock := v.stock + d } else v) =
      (fun v : Inventory => v.invId == x) := by
    funext v
    by_cases h : v.invId = j <;> simp [h]
  rw [hp]

lemma stockAt_incStock (invs : List Inventory) (j : Nat) (d : Int) (x : Nat) :
    stockAt (incStock invs j d) x =
      if x = j then (stockAt invs x).map (· + d) else stockAt invs x := by
  unfold stockAt
  rw [findInv_incStock]
  cases hf : findInv invs x with
  | none => simp
  | some v =>
    have hv := (findInv_eq_some hf).1
    by_cases hxj : x = j
    · subst hxj
      simp [hv]
    · have hne : v.invId ≠ j := by rw [hv]; exact hxj
      simp [hne, hxj]

lemma ids_incStock (invs : List Inventory) (j : Nat) (d : Int) :
    (incStock invs j d).map (·.invId) = invs.map (·.invId) := by
  unfold incStock
  rw [List.map_map]
  congr 1
  funext v
  by_cases h : v.invId = j <;> simp [h]

lemma mem_incStock {invs : List Inventory} {j : Nat} {d : Int} {v' : Inventory}
    (h : v' ∈ incStock invs j d) :
    ∃ v ∈ invs, v' = if v.invId == j then { v with stock := v.stock + d } else v := by
  unfold incStock at h
  obtain ⟨v, hv, hveq⟩ := List.mem_map.mp h
  exact ⟨v, hv, hveq.symm⟩

lemma mem_setInv {invs : List Inventory} {v w : Inventory}
    (h : w ∈ setInv invs v) : w = v ∨ w ∈ invs := by
  unfold setInv at h
  obtain ⟨u, hu, hueq⟩ := List.mem_map.mp h
  by_cases hc : u.invId == v.invId
  · simp [hc] at hueq; exact Or.inl hueq.symm
  · simp [hc] at hueq; exact Or.inr (hueq ▸ hu)

lemma qtySum_cons (it : OrderItem) (rest : List OrderItem) (x : Nat) :
    qtySum (it :: rest) x =
      (if it.inventoryId = x then it.qty else 0) + qtySum rest x := by
  unfold qtySum
  by_cases h : it.inventoryId = x <;> simp [h]

lemma stockAt_incrementAll (items : List OrderItem) (invs : List Inventory) (x : Nat) :
    stockAt (incrementAll invs items) x = (stockAt invs x).map (· + qtySum items x) := by
  induction items generalizing invs with
  | nil =>
    simp [incrementAll, qtySum]
  | cons it rest ih =>
    have hstep : incrementAll invs (it :: rest) =
        incrementAll (incStock invs it.inventoryId it.qty) rest := by
      simp [incrementAll]
    rw [hstep, ih, stockAt_incStock, qtySum_cons]
    by_cases h : x = it.inventoryId
    · simp only [h, if_pos rfl]
      cases stockAt invs it.inventoryId <;> simp [add_assoc]
    · have h' : ¬ it.inventoryId = x := fun hc => h hc.symm
      simp only [if_neg h, if_neg h', zero_add]

lemma stockAt_decrementAll (items : List OrderItem) (invs : List Inventory) (x : Nat) :
    stockAt (decrementAll invs items) x = (stockAt invs x).map (· - qtySum items x) := by
  induction items generalizing invs with
  | nil =>
    simp [decrementAll, qtySum]
  | cons it rest ih =>
    have hstep : decrementAll invs (it :: rest) =
        decrementAll (incStock invs it.inventoryId (-it.qty)) rest := by
      simp [decrementAll]
    rw [hstep, ih, stockAt_incStock, qtySum_cons]
    by_cases h : x = it.inventoryId
    · simp only [h, if_pos rfl]
      cases stockAt invs it.inventoryId <;> simp
      omega
    · have h' : ¬ it.inventoryId = x := fun hc => h hc.symm
      simp only [if_neg h, if_neg h', zero_add]

lemma ids_incrementAll (items : List OrderItem) (invs : List Inventory) :
    (incrementAll invs items).map (·.invId) = invs.map (·.invId) := by
  induction items generalizing invs with
  | nil => simp [incrementAll]
  | cons it rest ih =>
    have hstep : incrementAll invs (it :: rest) =
        incrementAll (incStock invs it.inventoryId it.qty) rest := by
      simp [incrementAll]
    rw [hstep, ih, ids_incStock]

lemma ids_decrementAll (items : List OrderItem) (invs : List Inventory) :
    (decrementAll invs items).map (·.invId) = invs.map (·.invId) := by
  induction items generalizing invs with
  | nil => simp [decrementAll]
  | cons it rest ih =>
    have hstep : decrementAll invs (it :: rest) =
        decrementAll (incStock invs it.inventoryId (-it.qty)) rest := by
      simp [decrementAll]
    rw [hstep, ih, ids_incStock]

/-- Restoring stock with non-negative quantities preserves non-negative
stocks. -/
lemma incrementAll_nonneg (items : List OrderItem) (invs : List Inventory)
    (hq : ∀ it ∈ items, 0 ≤ it.qty) (hpos : ∀ v ∈ invs, 0 ≤ v.stock) :
    ∀ v ∈ incrementAll invs items, 0 ≤ v.stock := by
  induction items generalizing invs with
  | nil => simpa [incrementAll] using hpos
  | cons it rest ih =>
    have hstep : incrementAll invs (it :: rest) =
        incrementAll (incStock invs it.inventoryId it.qty) rest := by
      simp [incrementAll]
    rw [hstep]
    refine ih _ (fun y hy => hq y (List.mem_cons_of_mem _ hy)) ?_
    intro v' hv'
    obtain ⟨v, hv, hveq⟩ := mem_incStock hv'
    have h0 := hpos v hv
    have hq0 := hq it (List.mem_cons_self _ _)
    by_cases hc : v.invId = it.inventoryId
    · simp [hc] at hveq
      subst hveq
      simp only
      omega
    · simp [hc] at hveq
      exact hveq ▸ h0

/-! ## Validation-loop lemmas -/

lemma validateCreateItems_ok_items {invs : List Inventory}
    {items its : List OrderItem} {amt : ℚ}
    (h : validateCreateItems invs items = .ok (its, amt)) : its = items := by
  induction items generalizing its amt with
  | nil => simp [validateCreateItems] at h; exact h.1.symm ▸ rfl
  | cons r rest ih =>
    unfold validateCreateItems at h
    split at h
    · simp at h
    · split at h
      · simp at h
      · rename_i inv hf
        split at h
        · simp at h
        · split at h
          · simp at h
          · split at h
            · simp at h
            · rename_i p its0 amt0 hrec
              simp at h
              obtain ⟨h1, -⟩ := h
              have := ih hrec
              rw [← h1, this]

/-- On any non-empty item list, `createOrder`'s validation loop always
errors: the availability guard reads the absent `isActive` path. -/
lemma validateCreateItems_cons_err {invs : List Inventory} {r : OrderItem}
    {rest its : List OrderItem} {amt : ℚ}
    (h : validateCreateItems invs (r :: rest) = .ok (its, amt)) : False := by
  unfold validateCreateItems at h
  split at h
  · nomatch h
  · split at h
    · nomatch h
    · rename_i inv hf
      split at h
      · nomatch h
      · rename_i hact
        exact hact rfl

/-- On any non-empty item list, `createSalesOrder`'s validation loop always
errors: the availability guard reads the absent `isActive` path. -/
lemma validateSalesItems_cons_err {invs : List Inventory} {it : SalesItem}
    {rest : List SalesItem} {u : Unit}
    (h : validateSalesItems invs (it :: rest) = .ok u) : False := by
  unfold validateSalesItems at h
  split at h
  · nomatch h
  · rename_i inv hf
    split at h
    · nomatch h
    · rename_i hact
      exact hact rfl

/-- On any non-empty item list, `updateSalesOrder`'s new-item validation
loop always errors: the availability guard reads the absent `isActive`
path. -/
lemma validateUpdateItems_cons_err {invs : List Inventory} {it : SalesItem}
    {rest : List SalesItem} {u : Unit}
    (h : validateUpdateItems invs (it :: rest) = .ok u) : False := by
  unfold validateUpdateItems at h
  split at h
  · nomatch h
  · rename_i inv hf
    split at h
    · nomatch h
    · rename_i hact
      exact hact rfl

/-- On any non-empty item list, `bulkAddToCart`'s availability loop always
errors: the availability guard reads the absent `isActive` path. -/
lemma bulkCheckStock_cons_err {invs : List Inventory} {it : CartItem}
    {rest : List CartItem} {u : Unit}
    (h : bulkCheckStock invs (it :: rest) = .ok u) : False := by
  unfold bulkCheckStock at h
  split at h
  · nomatch h
  · rename_i inv hf
    split at h
    · nomatch h
    · rename_i hact
      exact hact rfl

/-! ## find? bookkeeping -/

lemma find?_append_left {α : Type} (p : α → Bool) (l1 l2 : List α)
    (h : ∀ x ∈ l1, p x = false) : (l1 ++ l2).find? p = l2.find? p := by
  have h1 : l1.find? p = none :=
    List.find?_eq_none.mpr fun x hx => by simp [h x hx]
  rw [List.find?_append, h1, Option.none_or]

lemma findOrder_setOrder (orders : List Order) (o' : Order) (x : Nat) :
    findOrder (setOrder orders o') x =
      (findOrder orders x).map (fun w => if w.orderId == o'.orderId then o' else w) := by
  unfold findOrder setOrder
  rw [List.find?_map]
  have hp : ((fun w : Order => w.orderId == x) ∘
      fun w => if w.orderId == o'.orderId then o' else w) =
      (fun w : Order => w.orderId == x) := by
    funext w
    by_cases h : w.orderId = o'.orderId <;> simp [h]
  rw [hp]

lemma setOrder_setOrder (orders : List Order) (a b : Order)
    (h : b.orderId = a.orderId) : setOrder (setOrder orders a) b = setOrder orders b := by
  unfold setOrder
  rw [List.map_map]
  congr 1
  funext w
  by_cases hw : w.orderId = a.orderId
  · simp [hw, h]
  · simp [hw, h]

lemma findOrder_eq_some {orders : List Order} {x : Nat} {o : Order}
    (h : findOrder orders x = some o) : o.orderId = x ∧ o ∈ orders := by
  unfold findOrder at h
  have h1 := List.find?_some h
  have h2 := List.mem_of_find?_eq_some h
  exact ⟨by simpa using h1, h2⟩

/-- Destructuring a successful `cancelOrder` run: the order existed, the
caller was authorized, the status was cancellable, and the result state is
the original one with the order saved as cancelled and the stock restored. -/
lemma cancelOrder_ok {db : DB} {req : CancelOrderReq} {db' : DB} {o' : Order}
    (h : cancelOrder db req = (db', .ok o')) :
    ∃ o, findOrder db.orders req.orderId = some o ∧
      (o.userId = req.userId ∨ req.isAdmin = true) ∧
      (o.status = .pending ∨ o.status = .confirmed) ∧
      o'.orderId = o.orderId ∧ o'.userId = o.userId ∧
      o'.status = .cancelled ∧ o'.items = o.items ∧
      db' = { db with orders := setOrder db.orders o',
                      invs := incrementAll db.invs o.items } := by
  unfold cancelOrder at h
  split at h
  · simp at h
  · rename_i o hf
    split at h
    · simp at h
    · rename_i hauth
      split at h
      · simp at h
      · rename_i hstat
        have hauth' : o.userId = req.userId ∨ req.isAdmin = true := by
          by_cases hu : o.userId = req.userId
          · exact Or.inl hu
          · cases hA : req.isAdmin
            · exact absurd ⟨hu, hA⟩ hauth
            · exact Or.inr rfl
        have hstat' : o.status = OrderStatus.pending ∨ o.status = OrderStatus.confirmed := by
          by_contra hc
          exact hstat hc
        dsimp only at h
        split at h
        · rename_i hpaid
          injection h with h1 h2
          injection h2 with h3
          subst h3
          refine ⟨o, hf, hauth', hstat', rfl, rfl, rfl, rfl, ?_⟩
          rw [← h1]
          have := setOrder_setOrder db.orders
            { o with status := OrderStatus.cancelled,
                     cancellationReason := some (req.cancellationReason.getD "Cancelled by user") }
            { o with status := OrderStatus.cancelled,
                     cancellationReason := some (req.cancellationReason.getD "Cancelled by user"),
                     paymentStatus := PaymentStatus.refunded } rfl
          simp only at this ⊢
          rw [this]
        · injection h with h1 h2
          injection h2 with h3
          subst h3
          exact ⟨o, hf, hauth', hstat', rfl, rfl, rfl, rfl, h1.symm⟩

/-- C9: the cancel-order endpoint succeeds only from `pending` or
`confirmed`; an authorized cancel of an order in any other status fails with
a 400 and leaves the state untouched; and after a successful cancel, a
second authorized cancel of the same order fails with a 400 and leaves the
state untouched, so the endpoint never restores a given order's stock
twice. -/
theorem C9_cancel_only_pending_confirmed :
    (∀ db req db' o', cancelOrder db req = (db', Except.ok o') →
      ∃ o, findOrder db.orders req.orderId = some o ∧
        (o.status = OrderStatus.pending ∨ o.status = OrderStatus.confirmed)) ∧
    (∀ db req o, findOrder db.orders req.orderId = some o →
      (o.userId = req.userId ∨ req.isAdmin = true) →
      ¬ (o.status = OrderStatus.pending ∨ o.status = OrderStatus.confirmed) →
      cancelOrder db req = (db, Except.error ⟨"Order cannot be cancelled", 400⟩)) ∧
    (∀ db req db' o', cancelOrder db req = (db', Except.ok o') →
      ∀ req2 : CancelOrderReq, req2.orderId = req.orderId →
        (req2.userId = o'.userId ∨ req2.isAdmin = true) →
        cancelOrder db' req2 = (db', Except.error ⟨"Order cannot be cancelled", 400⟩)) := by
  have hreject : ∀ db req (o : Order), findOrder db.orders req.orderId = some o →
      (o.userId = req.userId ∨ req.isAdmin = true) →
      ¬ (o.status = OrderStatus.pending ∨ o.status = OrderStatus.confirmed) →
      cancelOrder db req = (db, Except.error ⟨"Order cannot be cancelled", 400⟩) := by
    intro db req o hf hauth hstat
    have hcond : ¬ (o.userId ≠ req.userId ∧ req.isAdmin = false) := by
      rintro ⟨hu, hA⟩
      rcases hauth with h1 | h1
      · exact hu h1
      · rw [h1] at hA; cases hA
    unfold cancelOrder
    rw [hf]
    simp only [if_neg hcond, if_pos hstat]
  refine ⟨?_, hreject, ?_⟩
  · intro db req db' o' h
    obtain ⟨o, hf, -, hst, -⟩ := cancelOrder_ok h
    exact ⟨o, hf, hst⟩
  · intro db req db' o' h req2 hid hauth2
    obtain ⟨o, hf, -, -, hoid, houid, hstat', hitems, hdb'⟩ := cancelOrder_ok h
    have hreqo : req.orderId = o.orderId := (findOrder_eq_some hf).1.symm
    have hfind2 : findOrder db'.orders req2.orderId = some o' := by
      rw [hdb']
      simp only
      rw [findOrder_setOrder, hid, hf]
      have : o.orderId = o'.orderId := hoid.symm
      simp [Option.map, ← this]
    have hstat2 : ¬ (o'.status = OrderStatus.pending ∨ o'.status = OrderStatus.confirmed) := by
      rw [hstat']
      rintro (hc | hc) <;> cases hc
    exact hreject db' req2 o' hfind2 (by rcases hauth2 with h1 | h1 <;> [exact Or.inl h1.symm; exact Or.inr h1]) hstat2

/-! ## Concrete fixtures used by witnesses and counterexamples -/

/-- A database with singleton reference collections and the given
inventories, orders, sales orders, purchase orders and carts. -/
def mkDB (invs : List Inventory) (orders : List Order) (sos : List SalesOrder)
    (purch : List PurchaseOrder) (carts : List Cart) (next : Nat) : DB :=
  ⟨[1], [1], [1], [1], [1], [1], invs, orders, sos, purch, carts, next⟩

/-- A sample inventory document. -/
def sampleInv (id : Nat) (price : ℚ) (stock : Int) : Inventory :=
  ⟨id, id, 1, 1, price, stock, "SKU", "BC", []⟩

/-! ## C8 -/

/-- C8: the global error handler answers every error with
`{success: false, message, error, statusCode}` where the body's status code
equals the HTTP status; an `AppError` keeps its own status code and message,
and an unrecognized non-`AppError` error gets a 500
`Internal Server Error`. -/
theorem C8_error_handler_envelope :
    (∀ m sc, errorHandler (JsError.appError m sc) =
      (sc, ⟨false, m, m, sc⟩)) ∧
    (∀ m, errorHandler (JsError.other m) =
      (500, ⟨false, "Internal Server Error", m, 500⟩)) ∧
    (∀ e, (errorHandler e).2.success = false ∧
      (errorHandler e).2.statusCode = (errorHandler e).1) := by
  refine ⟨fun m sc => rfl, fun m => rfl, fun e => ?_⟩
  cases e <;> exact ⟨rfl, rfl⟩

/-! ## C10 -/

/-- C10: the admin status-update handler touches only the targeted order and
only its `status`, `trackingNumber` and `notes` fields.  Every inventory
document (in particular every stock counter) is returned unchanged — also
when the new status is `cancelled` — as are all other collections; on error
nothing at all changes. -/
theorem C10_update_order_status_frame :
    ∀ db req db' r, updateOrderStatus db req = (db', r) →
      db'.invs = db.invs ∧
      db'.salesOrders = db.salesOrders ∧
      db'.purchaseOrders = db.purchaseOrders ∧
      db'.carts = db.carts ∧
      db'.nextId = db.nextId ∧
      (∀ e, r = Except.error e → db' = db) ∧
      (∀ o', r = Except.ok o' →
        ∃ o, findOrder db.orders req.orderId = some o ∧
          db'.orders = setOrder db.orders o' ∧
          o' = { o with
            status := req.status.getD o.status,
            trackingNumber := match req.trackingNumber with
              | none => o.trackingNumber
              | some t => some t,
            notes := match req.notes with
              | none => o.notes
              | some n => some n }) := by
  intro db req db' r h
  unfold updateOrderStatus at h
  split at h
  · injection h with h1 h2
    subst h1
    subst h2
    exact ⟨rfl, rfl, rfl, rfl, rfl, fun e _ => rfl, fun o' ho => nomatch ho⟩
  · rename_i o hf
    injection h with h1 h2
    subst h1
    subst h2
    refine ⟨rfl, rfl, rfl, rfl, rfl, ?_, ?_⟩
    · intro e he
      exact nomatch he
    · intro o' ho
      injection ho with ho'
      exact ⟨o, hf, by rw [← ho'], by rw [← ho']⟩

/-- A pending order used by the C10 witness. -/
def exOrder10 : Order :=
  ⟨1, 1, [⟨7, 2⟩], 20, 0, .pending, .pending, none, none, none⟩

/-- The C10 witness database: one inventory, one pending order. -/
def exDB10 : DB := mkDB [sampleInv 7 10 5] [exOrder10] [] [] [] 8

/-- The C10 witness request: an admin sets the status to `cancelled`. -/
def exReq10 : UpdateOrderStatusReq := ⟨1, some .cancelled, none, none⟩

/-- Witness for C10: on a concrete store, marking an order `cancelled`
through the status-update endpoint leaves the inventory collection (and the
stock counter 5) unchanged. -/
theorem C10_update_order_status_frame_witness :
    (updateOrderStatus exDB10 exReq10).1.invs = exDB10.invs ∧
    stockAt (updateOrderStatus exDB10 exReq10).1.invs 7 = some 5 :=
  ⟨(C10_update_order_status_frame exDB10 exReq10
      (updateOrderStatus exDB10 exReq10).1
      (updateOrderStatus exDB10 exReq10).2 rfl).1,
    by decide⟩

/-- A delivered order used by the C9 witness. -/
def exOrder9 : Order :=
  ⟨1, 1, [⟨7, 2⟩], 20, 0, .delivered, .paid, none, none, none⟩

/-- The C9 witness database. -/
def exDB9 : DB := mkDB [sampleInv 7 10 5] [exOrder9] [] [] [] 8

/-- The C9 witness request: the owner attempts to cancel a delivered
order. -/
def exReq9 : CancelOrderReq := ⟨1, 1, false, none⟩

/-- Witness for C9: on a concrete store, cancelling a delivered order fails
with a 400 and leaves the database untouched. -/
theorem C9_cancel_only_pending_confirmed_witness :
    cancelOrder exDB9 exReq9 = (exDB9, Except.error ⟨"Order cannot be cancelled", 400⟩) :=
  C9_cancel_only_pending_confirmed.2.1 exDB9 exReq9 exOrder9 (by decide)
    (Or.inl rfl) (by decide)

/-! ## C6 -/

/-- Characterization of `Math.ceil(total / limit)` for a positive limit:
`totalPages` is the least page count covering `total` documents. -/
lemma jsCeilDiv_bounds (total limit : Int) (h : 1 ≤ limit) :
    (jsCeilDiv total limit - 1) * limit < total ∧ total ≤ jsCeilDiv total limit * limit := by
  unfold jsCeilDiv
  have hl : (0 : ℚ) < (limit : ℚ) := by exact_mod_cast (by omega : (0 : Int) < limit)
  constructor
  · have h1 : ((⌈(total : ℚ) / (limit : ℚ)⌉ : ℚ) - 1) < (total : ℚ) / (limit : ℚ) := by
      have := Int.ceil_lt_add_one ((total : ℚ) / (limit : ℚ))
      linarith
    have h2 := (lt_div_iff₀ hl).mp h1
    have h3 : ((⌈(total : ℚ) / (limit : ℚ)⌉ - 1) * limit : ℚ) < (total : ℚ) := by
      linarith
    exact_mod_cast h3
  · have h1 : (total : ℚ) / (limit : ℚ) ≤ (⌈(total : ℚ) / (limit : ℚ)⌉ : ℚ) :=
      Int.le_ceil _
    have h2 := (div_le_iff₀ hl).mp h1
    exact_mod_cast h2

/-- C6: for the paginated list endpoints (orders, inventory, sales orders),
`total` is exactly the number of stored documents matching the applied
filter and `totalPages = Math.ceil(total / limit)` for the effective limit
(clamped to `[1,100]` for orders, defaulted to 10 for the others); when the
effective limit is positive, `totalPages` is the least page count covering
`total`. -/
theorem C6_pagination_correct :
    (∀ db req db' res pg, getAllOrders db req = (db', Except.ok (res, pg)) →
      pg.total = ((db.orders.filter (orderMatches req)).length : Int) ∧
      pg.limit = min 100 (max 1 (req.limit.getD 10)) ∧
      pg.totalPages = jsCeilDiv pg.total pg.limit ∧
      (pg.totalPages - 1) * pg.limit < pg.total ∧ pg.total ≤ pg.totalPages * pg.limit) ∧
    (∀ db req db' res pg, getAllInventory db req = (db', Except.ok (res, pg)) →
      pg.total = ((db.invs.filter (invSearchMatch req.search)).length : Int) ∧
      pg.limit = req.limit.getD 10 ∧
      pg.totalPages = jsCeilDiv pg.total pg.limit ∧
      (1 ≤ pg.limit →
        (pg.totalPages - 1) * pg.limit < pg.total ∧ pg.total ≤ pg.totalPages * pg.limit)) ∧
    (∀ db req db' res pg, getSalesOrders db req = (db', Except.ok (res, pg)) →
      pg.total = ((db.salesOrders.filter (salesOrderMatches req)).length : Int) ∧
      pg.limit = jsOr req.limit 10 ∧
      pg.totalPages = jsCeilDiv pg.total pg.limit ∧
      (1 ≤ pg.limit →
        (pg.totalPages - 1) * pg.limit < pg.total ∧ pg.total ≤ pg.totalPages * pg.limit)) := by
  refine ⟨?_, ?_, ?_⟩
  · intro db req db' res pg h
    unfold getAllOrders at h
    injection h with h1 h2
    injection h2 with h3
    injection h3 with h4 h5
    subst h5
    have hlim : (1 : Int) ≤ min 100 (max 1 (req.limit.getD 10)) :=
      le_min (by norm_num) (le_max_left _ _)
    obtain ⟨hb1, hb2⟩ := jsCeilDiv_bounds ((db.orders.filter (orderMatches req)).length : Int)
      (min 100 (max 1 (req.limit.getD 10))) hlim
    exact ⟨rfl, rfl, rfl, hb1, hb2⟩
  · intro db req db' res pg h
    unfold getAllInventory at h
    injection h with h1 h2
    injection h2 with h3
    injection h3 with h4 h5
    subst h5
    refine ⟨rfl, rfl, rfl, fun hlim => ?_⟩
    exact jsCeilDiv_bounds _ _ hlim
  · intro db req db' res pg h
    unfold getSalesOrders at h
    injection h with h1 h2
    injection h2 with h3
    injection h3 with h4 h5
    subst h5
    refine ⟨rfl, rfl, rfl, fun hlim => ?_⟩
    exact jsCeilDiv_bounds _ _ hlim

/-- A sales order of user 1 for customer 1, used by the C6 witness. -/
def exSO11 : SalesOrder := ⟨11, 1, 1, [⟨1, 1, 10⟩], 10, 0⟩

/-- The C6 witness database: three sales orders of user 1 (two for customer
1), and two inventories. -/
def exDB6 : DB :=
  mkDB [sampleInv 1 10 5, sampleInv 2 10 5] []
    [exSO11, ⟨12, 1, 1, [⟨2, 2, 10⟩], 20, 0⟩, ⟨13, 1, 2, [⟨1, 1, 10⟩], 10, 0⟩] [] [] 14

/-- The C6 witness query: user 1, `limit = 1`, filtered to customer 1. -/
def exReq6 : GetSalesOrdersReq := ⟨1, none, some 1, some 1⟩

/-- Witness for C6: on a concrete store, filtering user 1's sales orders by
customer 1 yields `total = 2` matching documents and
`totalPages = ceil(2/1) = 2` with the covering bounds. -/
theorem C6_pagination_correct_witness :
    getSalesOrders exDB6 exReq6 = (exDB6, Except.ok ([exSO11], ⟨1, 1, 2, jsCeilDiv 2 1⟩)) ∧
    jsCeilDiv 2 1 = 2 ∧
    (jsCeilDiv 2 1 - 1) * 1 < 2 ∧ (2 : Int) ≤ jsCeilDiv 2 1 * 1 := by
  have heq : getSalesOrders exDB6 exReq6 =
      (exDB6, Except.ok ([exSO11], ⟨1, 1, 2, jsCeilDiv 2 1⟩)) := rfl
  have h := C6_pagination_correct.2.2 exDB6 exReq6 exDB6 [exSO11]
    ⟨1, 1, 2, jsCeilDiv 2 1⟩ heq
  have hb := h.2.2.2 (by norm_num)
  refine ⟨heq, ?_, hb.1, hb.2⟩
  unfold jsCeilDiv
  norm_num

/-! ## C7 -/

lemma findCart_eq_some {carts : List Cart} {uid : Nat} {c : Cart}
    (h : findCart carts uid = some c) : c.cartUserId = uid ∧ c ∈ carts := by
  unfold findCart at h
  have h1 := List.find?_some h
  have h2 := List.mem_of_find?_eq_some h
  exact ⟨by simpa using h1, h2⟩

lemma findCart_saveCart (carts : List Cart) (c : Cart) :
    findCart (saveCart carts c) c.cartUserId = some c := by
  unfold saveCart
  split
  · rename_i hsome
    unfold findCart
    rw [List.find?_map]
    have hp : ((fun x : Cart => x.cartUserId == c.cartUserId) ∘
        fun x => if x.cartUserId == c.cartUserId then c else x) =
        (fun x : Cart => x.cartUserId == c.cartUserId) := by
      funext x
      by_cases hx : x.cartUserId = c.cartUserId <;> simp [hx]
    rw [hp]
    obtain ⟨x, hx⟩ := Option.isSome_iff_exists.mp hsome
    have hxeq := (findCart_eq_some hx).1
    unfold findCart at hx
    rw [hx]
    simp [hxeq]
  · rename_i hnone
    unfold findCart
    rw [find?_append_left]
    · simp [List.find?_cons]
    · intro x hx
      have : findCart carts c.cartUserId = none := by
        cases hfc : findCart carts c.cartUserId
        · rfl
        · rw [hfc] at hnone; simp at hnone
      unfold findCart at this
      have := List.find?_eq_none.mp this x hx
      simpa using this

/-- `addToCart` can never succeed: the availability guard reads the absent
`isActive` path and always throws. -/
lemma addToCart_never_ok (db : DB) (req : AddToCartReq) (db' : DB) (c : Cart)
    (h : addToCart db req = (db', Except.ok c)) : False := by
  unfold addToCart at h
  split at h
  · injection h with h1 h2; nomatch h2
  · injection h with h1 h2; nomatch h2
  · rename_i invId qty
    split at h
    · injection h with h1 h2; nomatch h2
    · split at h
      · injection h with h1 h2; nomatch h2
      · split at h
        · injection h with h1 h2; nomatch h2
        · rename_i inv hinv
          split at h
          · injection h with h1 h2; nomatch h2
          · rename_i hact
            exact hact rfl

/-- `bulkAddToCart` can never succeed: it rejects an empty item list, and on
a non-empty one the availability loop always throws. -/
lemma bulkAddToCart_never_ok (db : DB) (req : BulkAddReq) (db' : DB) (c : Cart)
    (h : bulkAddToCart db req = (db', Except.ok c)) : False := by
  unfold bulkAddToCart at h
  split at h
  · injection h with h1 h2; nomatch h2
  · rename_i hne
    split at h
    · injection h with h1 h2; nomatch h2
    · split at h
      · injection h with h1 h2; nomatch h2
      · rename_i u hstock
        cases hits : req.items with
        | nil => rw [hits] at hne; exact hne rfl
        | cons r rest =>
          rw [hits] at hstock
          exact bulkCheckStock_cons_err hstock

/-- `updateCartItem` can never succeed: the availability guard reads the
absent `isActive` path and always throws. -/
lemma updateCartItem_never_ok (db : DB) (req : UpdateCartItemReq) (db' : DB) (c : Cart)
    (h : updateCartItem db req = (db', Except.ok c)) : False := by
  unfold updateCartItem at h
  split at h
  · injection h with h1 h2; nomatch h2
  · split at h
    · injection h with h1 h2; nomatch h2
    · split at h
      · injection h with h1 h2; nomatch h2
      · rename_i inv hinv
        split at h
        · injection h with h1 h2; nomatch h2
        · rename_i hact
          exact hact rfl

/-- C7 (amended): `removeFromCart` and `clearCart` store a cart whose
denormalized `totalAmount` equals `calculateCartTotal` (0 for the cleared
cart), with the inventories untouched — but `addToCart`, `bulkAddToCart` and
`updateCartItem` can never succeed: their availability guard reads the
`isActive` path, which the inventory schema does not define, so they always
throw the 400 not-available error before writing anything. -/
theorem C7_cart_total_invariant :
    (∀ db req db' c', addToCart db req = (db', Except.ok c') → False) ∧
    (∀ db req db' c', bulkAddToCart db req = (db', Except.ok c') → False) ∧
    (∀ db req db' c', updateCartItem db req = (db', Except.ok c') → False) ∧
    (∀ db uid invId db' c', removeFromCart db uid invId = (db', Except.ok c') →
      db'.invs = db.invs ∧ findCart db'.carts uid = some c' ∧
      c'.totalAmount = calculateCartTotal db'.invs c'.items) ∧
    (∀ db uid db' c', clearCart db uid = (db', Except.ok c') →
      db'.invs = db.invs ∧ findCart db'.carts uid = some c' ∧
      c'.items = [] ∧ c'.totalAmount = 0 ∧
      c'.totalAmount = calculateCartTotal db'.invs c'.items) := by
  have hround0 : ∀ invs : List Inventory, calculateCartTotal invs [] = 0 := by
    intro invs
    unfold calculateCartTotal jsRound2
    norm_num
  refine ⟨?_, ?_, ?_, ?_, ?_⟩
  · exact fun db req db' c' h => addToCart_never_ok db req db' c' h
  · exact fun db req db' c' h => bulkAddToCart_never_ok db req db' c' h
  · exact fun db req db' c' h => updateCartItem_never_ok db req db' c' h
  · intro db uid invId db' c' h
    unfold removeFromCart at h
    split at h
    · simp at h
    · rename_i cart hcart
      split at h
      · simp at h
      · injection h with h1 h2
        injection h2 with h3
        subst h3
        subst h1
        exact ⟨rfl, findCart_saveCart _ _, rfl⟩
  · intro db uid db' c' h
    unfold clearCart at h
    split at h
    · simp at h
    · rename_i cart hcart
      injection h with h1 h2
      injection h2 with h3
      subst h3
      subst h1
      exact ⟨rfl, findCart_saveCart _ _, rfl, rfl, (hround0 _).symm⟩

/-- The C7 database: one inventory priced 10.55 with stock 5 and an empty
cart of user 1. -/
def exDB7 : DB := mkDB [sampleInv 1 (1055 / 100) 5] [] [] [] [⟨1, [], 0⟩] 2

/-- The C7 request: add 3 units of inventory 1. -/
def exReq7 : AddToCartReq := ⟨1, some 1, some 3⟩

/-- Counterexample for C7 as stated: the spec's cart mutations cannot be
exercised — adding 3 units of an in-stock inventory, bulk-adding it, and
updating its quantity all fail with the 400 not-available error and write
nothing, because the availability guard reads the `isActive` path absent
from the inventory schema. -/
theorem C7_counterexample :
    addToCart exDB7 exReq7 =
      (exDB7, Except.error ⟨"This item is not available", 400⟩) ∧
    bulkAddToCart exDB7 ⟨1, [⟨1, 3⟩]⟩ =
      (exDB7, Except.error ⟨"Item is not available", 400⟩) ∧
    updateCartItem exDB7 ⟨1, 1, some 3⟩ =
      (exDB7, Except.error ⟨"This item is not available", 400⟩) :=
  ⟨rfl, rfl, rfl⟩

/-- Witness for C7: clearing user 1's cart succeeds, stores the empty item
list, and sets the denormalized total to 0. -/
theorem C7_cart_total_invariant_witness :
    ((clearCart exDB7 1).2.toOption.getD ⟨1, [⟨1, 1⟩], 5⟩).items = [] ∧
    ((clearCart exDB7 1).2.toOption.getD ⟨1, [⟨1, 1⟩], 5⟩).totalAmount = 0 := by
  have h := C7_cart_total_invariant.2.2.2.2 exDB7 1 (clearCart exDB7 1).1
    ((clearCart exDB7 1).2.toOption.getD ⟨1, [⟨1, 1⟩], 5⟩) rfl
  exact ⟨h.2.2.1, h.2.2.2.1⟩

/-! ## C5 -/

/-- No two inventory documents share the same (item, size, color) triple. -/
def uniqueTriples (invs : List Inventory) : Prop :=
  invs.Pairwise fun v w => ¬ (v.item = w.item ∧ v.size = w.size ∧ v.color = w.color)

instance (invs : List Inventory) : Decidable (uniqueTriples invs) := by
  unfold uniqueTriples; infer_instance

/-- The document produced by `updateInventory`'s `$set`: the provided fields
overwrite the loaded document. -/
@[reducible] def updInv (req : UpdateInventoryReq) (inv : Inventory) : Inventory :=
  { inv with
    item := req.item.getD inv.item, size := req.size.getD inv.size,
    color := req.color.getD inv.color,
    price := req.price.getD inv.price, stock := req.stock.getD inv.stock,
    sku := req.sku.getD inv.sku }

/-- Destructuring `updateInventory`: either an error with the state
untouched, or the loaded document is overwritten by the provided fields
after the duplicate-triple check (against every other document) passed. -/
lemma updateInventory_cases (db : DB) (req : UpdateInventoryReq) (db' : DB)
    (r : Except AppError Inventory) (h : updateInventory db req = (db', r)) :
    (db' = db ∧ ∃ e, r = .error e) ∨
    ∃ inv, findInv db.invs req.invId = some inv ∧
      db' = { db with invs := setInv db.invs (updInv req inv) } ∧
      r = .ok (updInv req inv) ∧
      ((req.item.isSome ∨ req.size.isSome ∨ req.color.isSome) →
        (db.invs.find? fun v =>
          v.item == req.item.getD inv.item && v.size == req.size.getD inv.size &&
          v.color == req.color.getD inv.color && !(v.invId == req.invId)) = none) ∧
      ¬ req.stock.getD inv.stock < 0 := by
  unfold updateInventory at h
  split at h
  · injection h with ha hb
    exact Or.inl ⟨ha.symm, _, hb.symm⟩
  · rename_i inv hf
    dsimp only at h
    split_ifs at h with h1 h2 h3 h4 h5
    all_goals
      first
      | (injection h with ha hb
         exact Or.inl ⟨ha.symm, _, hb.symm⟩)
      | (injection h with ha hb
         refine Or.inr ⟨inv, hf, ha.symm, hb.symm, fun hprov => ?_,
           fun hc => h5 (Or.inr hc)⟩
         cases hfind : db.invs.find? fun v =>
             v.item == req.item.getD inv.item && v.size == req.size.getD inv.size &&
             v.color == req.color.getD inv.color && !(v.invId == req.invId)
         · rfl
         · exact absurd ⟨hprov, by rw [hfind]; rfl⟩ h4)

/-- Destructuring `createInventory`: either an error with the state
untouched, or all required fields were present, the duplicate-triple check
found nothing, and the new document was appended. -/
lemma createInventory_cases (db : DB) (req : CreateInventoryReq) (db' : DB)
    (r : Except AppError Inventory) (h : createInventory db req = (db', r)) :
    (db' = db ∧ ∃ e, r = .error e) ∨
    ∃ it price sz cl stock,
      req.item = some it ∧ req.price = some price ∧ req.size = some sz ∧
      req.color = some cl ∧ req.stock = some stock ∧
      (db.invs.find? fun v => v.item == it && v.size == sz && v.color == cl) = none ∧
      db' = { db with
        invs := db.invs ++
          [⟨db.nextId, it, sz, cl, price, stock, req.sku, req.barcode, req.tags⟩],
        nextId := db.nextId + 1 } ∧
      r = Except.ok ⟨db.nextId, it, sz, cl, price, stock, req.sku, req.barcode, req.tags⟩ ∧
      ¬ stock < 0 := by
  unfold createInventory at h
  split at h
  · injection h with h1 h2; exact Or.inl ⟨h1.symm, _, h2.symm⟩
  · injection h with h1 h2; exact Or.inl ⟨h1.symm, _, h2.symm⟩
  · injection h with h1 h2; exact Or.inl ⟨h1.symm, _, h2.symm⟩
  · injection h with h1 h2; exact Or.inl ⟨h1.symm, _, h2.symm⟩
  · injection h with h1 h2; exact Or.inl ⟨h1.symm, _, h2.symm⟩
  · rename_i it price sz cl stock hit hprice hsz hcl hstock
    split_ifs at h with h1 h2 h3 h4 h5 h6
    all_goals
      first
      | (injection h with ha hb
         exact Or.inl ⟨ha.symm, _, hb.symm⟩)
      | (injection h with ha hb
         refine Or.inr ⟨it, price, sz, cl, stock, hit, hprice, hsz, hcl, hstock, ?_,
           ha.symm, hb.symm, fun hc => h6 (Or.inr hc)⟩
         cases hfind : db.invs.find? fun v => v.item == it && v.size == sz && v.color == cl
         · rfl
         · rw [hfind] at h5; simp at h5)

lemma opt_eq_none_of_not_isSome {α : Type} {o : Option α} (h : ¬ o.isSome = true) :
    o = none := by
  cases o
  · rfl
  · simp at h

/-- C5: the duplicate checks of `createInventory` and `updateInventory`
preserve triple-uniqueness of the inventory collection; a successful create
never shares its (item, size, color) with an existing document, and a
successful update that changes the triple never shares the new triple with
a different document. -/
theorem C5_inventory_triple_unique :
    (∀ db req db' r, createInventory db req = (db', r) →
      uniqueTriples db.invs → uniqueTriples db'.invs) ∧
    (∀ db req db' r, (db.invs.map (·.invId)).Nodup →
      updateInventory db req = (db', r) →
      uniqueTriples db.invs → uniqueTriples db'.invs) ∧
    (∀ db req db' inv, createInventory db req = (db', Except.ok inv) →
      ∀ v ∈ db.invs, ¬ (v.item = inv.item ∧ v.size = inv.size ∧ v.color = inv.color)) ∧
    (∀ db req db' inv, updateInventory db req = (db', Except.ok inv) →
      (req.item.isSome ∨ req.size.isSome ∨ req.color.isSome) →
      ∀ v ∈ db.invs, v.invId ≠ req.invId →
        ¬ (v.item = inv.item ∧ v.size = inv.size ∧ v.color = inv.color)) := by
  have hsymm : Symmetric fun v w : Inventory =>
      ¬ (v.item = w.item ∧ v.size = w.size ∧ v.color = w.color) := by
    intro v w hvw hc
    exact hvw ⟨hc.1.symm, hc.2.1.symm, hc.2.2.symm⟩
  refine ⟨?_, ?_, ?_, ?_⟩
  · intro db req db' r h hu
    rcases createInventory_cases db req db' r h with ⟨hdb, -⟩ |
      ⟨it, price, sz, cl, stock, -, -, -, -, -, hfind, hdb, -, -⟩
    · exact hdb ▸ hu
    · subst hdb
      unfold uniqueTriples at hu ⊢
      rw [List.pairwise_append]
      refine ⟨hu, List.pairwise_singleton _ _, ?_⟩
      intro a ha b hb
      rw [List.mem_singleton] at hb
      subst hb
      have hnotm := List.find?_eq_none.mp hfind a ha
      rintro ⟨e1, e2, e3⟩
      apply hnotm
      simp only at e1 e2 e3
      simp [e1, e2, e3]
  · intro db req db' r hnd h hu
    rcases updateInventory_cases db req db' r h with ⟨hdb, -⟩ | ⟨inv, hf, hdb, -, hdup, -⟩
    · exact hdb ▸ hu
    · subst hdb
      have hid : inv.invId = req.invId := (findInv_eq_some hf).1
      have hmem : inv ∈ db.invs := (findInv_eq_some hf).2
      have hinj := List.inj_on_of_nodup_map hnd
      unfold uniqueTriples at hu ⊢
      unfold setInv
      rw [List.pairwise_map]
      refine List.Pairwise.imp_of_mem ?_ hu
      intro a b ha hb hr
      have hcase : ∀ x ∈ db.invs, x.invId ≠ inv.invId →
          ¬ (x.item = (updInv req inv).item ∧ x.size = (updInv req inv).size ∧
              x.color = (updInv req inv).color) := by
        intro x hx hxid hcon
        obtain ⟨e1, e2, e3⟩ := hcon
        by_cases hprov : req.item.isSome ∨ req.size.isSome ∨ req.color.isSome
        · have hnone := List.find?_eq_none.mp (hdup hprov) x hx
          apply hnone
          simp only [updInv] at e1 e2 e3
          have hxr : x.invId ≠ req.invId := by rw [← hid]; exact hxid
          simp [e1, e2, e3, hxr]
        · push_neg at hprov
          obtain ⟨hp1, hp2, hp3⟩ := hprov
          have hn1 := opt_eq_none_of_not_isSome hp1
          have hn2 := opt_eq_none_of_not_isSome hp2
          have hn3 := opt_eq_none_of_not_isSome hp3
          simp only [updInv, hn1, hn2, hn3, Option.getD_none] at e1 e2 e3
          have hxne : x ≠ inv := fun hc => hxid (hc ▸ rfl)
          exact List.Pairwise.forall hsymm hu hx hmem hxne ⟨e1, e2, e3⟩
      by_cases hA : a.invId = (updInv req inv).invId
      · have ha' : a = inv := hinj ha hmem (by simpa using hA)
        by_cases hB : b.invId = (updInv req inv).invId
        · have hb' : b = inv := hinj hb hmem (by simpa using hB)
          rw [ha', hb'] at hr
          exact absurd ⟨rfl, rfl, rfl⟩ hr
        · simp only [beq_iff_eq, if_pos hA, if_neg hB]
          intro hcon
          exact hcase b hb (by simpa using hB)
            ⟨hcon.1.symm, hcon.2.1.symm, hcon.2.2.symm⟩
      · by_cases hB : b.invId = (updInv req inv).invId
        · simp only [beq_iff_eq, if_neg hA, if_pos hB]
          intro hcon
          exact hcase a ha (by simpa using hA) hcon
        · simp only [beq_iff_eq, if_neg hA, if_neg hB]
          exact hr
  · intro db req db' inv h
    rcases createInventory_cases db req db' (Except.ok inv) h with ⟨-, e, hbad⟩ |
      ⟨it, price, sz, cl, stock, -, -, -, -, -, hfind, -, hr, -⟩
    · cases hbad
    · injection hr with hr'
      intro v hv
      rintro ⟨e1, e2, e3⟩
      have hnotm := List.find?_eq_none.mp hfind v hv
      apply hnotm
      simp only [hr'] at e1 e2 e3
      simp [e1, e2, e3]
  · intro db req db' inv h hprov v hv hvid
    rcases updateInventory_cases db req db' (Except.ok inv) h with ⟨-, e, hbad⟩ |
      ⟨inv0, hf, -, hok, hdup, -⟩
    · cases hbad
    · injection hok with hok'
      rintro ⟨e1, e2, e3⟩
      have hnone := List.find?_eq_none.mp (hdup hprov) v hv
      apply hnone
      simp only [hok', updInv] at e1 e2 e3
      simp [e1, e2, e3, hvid]

/-! ## Handler destructuring lemmas -/

lemma createOrderCheck_ok {db : DB} {req : CreateOrderReq} {uid : Nat}
    {vitems : List OrderItem} {total : ℚ}
    (h : createOrderCheck db req = .ok (uid, vitems, total)) :
    req.userId = some uid ∧
    validateCreateItems db.invs req.items = .ok (vitems, total) := by
  unfold createOrderCheck at h
  split at h
  · simp at h
  · rename_i uid0 huid
    split at h
    · simp at h
    · split at h
      · simp at h
      · split at h
        · simp at h
        · rename_i vits tot hval
          split at h
          · simp at h
          · injection h with h'
            injection h' with e1 e2
            injection e2 with e2a e2b
            subst e1
            subst e2a
            subst e2b
            exact ⟨huid, hval⟩

lemma createOrder_cases (db : DB) (req : CreateOrderReq) (db' : DB)
    (r : Except AppError Order) (h : createOrder db req = (db', r)) :
    (db' = db ∧ ∃ e, r = .error e) ∨
    ∃ uid total,
      req.userId = some uid ∧
      validateCreateItems db.invs req.items = .ok (req.items, total) ∧
      db' = { db with
        orders := db.orders ++
          [⟨db.nextId, uid, req.items, total, req.discount, .pending, .pending,
            none, req.notes, none⟩],
        invs := decrementAll db.invs req.items,
        nextId := db.nextId + 1 } ∧
      r = Except.ok ⟨db.nextId, uid, req.items, total, req.discount, .pending, .pending,
        none, req.notes, none⟩ := by
  unfold createOrder at h
  split at h
  · injection h with h1 h2
    exact Or.inl ⟨h1.symm, _, h2.symm⟩
  · rename_i uid vitems total hchk
    obtain ⟨huid, hval⟩ := createOrderCheck_ok hchk
    have hvi : vitems = req.items := validateCreateItems_ok_items hval
    subst hvi
    injection h with h1 h2
    exact Or.inr ⟨uid, total, huid, hval, h1.symm, h2.symm⟩

/-- `createOrder`'s pre-write checks can never all pass: an empty item list
is rejected outright, and on a non-empty one the validation loop always
errors at the availability guard. -/
lemma createOrderCheck_never_ok {db : DB} {req : CreateOrderReq}
    {t : Nat × List OrderItem × ℚ} (h : createOrderCheck db req = .ok t) : False := by
  unfold createOrderCheck at h
  split at h
  · nomatch h
  · rename_i uid huid
    split at h
    · nomatch h
    · split at h
      · nomatch h
      · rename_i hne
        split at h
        · nomatch h
        · rename_i vits tot hval
          cases hits : req.items with
          | nil => rw [hits] at hne; exact hne rfl
          | cons r rest =>
            rw [hits] at hval
            exact validateCreateItems_cons_err hval

/-- No order can ever be created. -/
lemma createOrder_never_ok (db : DB) (req : CreateOrderReq) (db' : DB) (o : Order)
    (h : createOrder db req = (db', Except.ok o)) : False := by
  unfold createOrder at h
  split at h
  · injection h with h1 h2; nomatch h2
  · rename_i uid vits tot hchk
    exact createOrderCheck_never_ok hchk

lemma createSalesOrder_cases (db : DB) (req : CreateSalesOrderReq) (db' : DB)
    (r : Except AppError SalesOrder) (h : createSalesOrder db req = (db', r)) :
    (db' = db ∧ ∃ e, r = .error e) ∨
    ∃ cid,
      req.customerId = some cid ∧
      validateSalesItems db.invs req.items = .ok () ∧
      db' = { db with
        salesOrders := db.salesOrders ++
          [⟨db.nextId, req.userId, cid, req.items,
            max 0 (salesSubtotal req.items - req.totalDiscount), req.totalDiscount⟩],
        invs := decrementAll db.invs (req.items.map toOrderItem),
        nextId := db.nextId + 1 } ∧
      r = Except.ok ⟨db.nextId, req.userId, cid, req.items,
        max 0 (salesSubtotal req.items - req.totalDiscount), req.totalDiscount⟩ := by
  unfold createSalesOrder at h
  split at h
  · injection h with h1 h2
    exact Or.inl ⟨h1.symm, _, h2.symm⟩
  · rename_i cid hcid
    split at h
    · injection h with h1 h2
      exact Or.inl ⟨h1.symm, _, h2.symm⟩
    · split at h
      · injection h with h1 h2
        exact Or.inl ⟨h1.symm, _, h2.symm⟩
      · split at h
        · injection h with h1 h2
          exact Or.inl ⟨h1.symm, _, h2.symm⟩
        · rename_i u hval
          dsimp only at h
          injection h with ha hb
          refine Or.inr ⟨cid, hcid, ?_, ha.symm, hb.symm⟩
          rw [hval]

/-- No sales order can ever be created: an empty item list is rejected
outright, and on a non-empty one the validation loop always errors at the
availability guard. -/
lemma createSalesOrder_never_ok (db : DB) (req : CreateSalesOrderReq) (db' : DB)
    (so : SalesOrder) (h : createSalesOrder db req = (db', Except.ok so)) : False := by
  unfold createSalesOrder at h
  split at h
  · injection h with h1 h2; nomatch h2
  · rename_i cid hcid
    split at h
    · rename_i hempty
      injection h with h1 h2; nomatch h2
    · rename_i hne
      split at h
      · injection h with h1 h2; nomatch h2
      · split at h
        · injection h with h1 h2; nomatch h2
        · rename_i u hval
          cases hits : req.items with
          | nil => rw [hits] at hne; exact hne rfl
          | cons r rest =>
            rw [hits] at hval
            exact validateSalesItems_cons_err hval

lemma deleteSalesOrder_cases (db : DB) (soId userId : Nat) (db' : DB)
    (r : Except AppError Unit) (h : deleteSalesOrder db soId userId = (db', r)) :
    (db' = db ∧ ∃ e, r = .error e) ∨
    ∃ so, findSO db.salesOrders soId userId = some so ∧
      db' = { db with
        invs := incrementAll db.invs (so.items.map toOrderItem),
        salesOrders := db.salesOrders.filter fun s => !(s.soId == soId) } ∧
      r = Except.ok () := by
  unfold deleteSalesOrder at h
  split at h
  · injection h with h1 h2
    exact Or.inl ⟨h1.symm, _, h2.symm⟩
  · rename_i so hf
    injection h with h1 h2
    exact Or.inr ⟨so, hf, h1.symm, h2.symm⟩

lemma createPurchaseOrder_cases (db : DB) (req : CreatePurchaseOrderReq) (db' : DB)
    (r : Except AppError PurchaseOrder) (h : createPurchaseOrder db req = (db', r)) :
    (db' = db ∧ ∃ e, r = .error e) ∨
    ∃ po, db' = { db with
        purchaseOrders := db.purchaseOrders ++ [po], nextId := db.nextId + 1 } ∧
      r = Except.ok po := by
  unfold createPurchaseOrder at h
  split at h
  · injection h with h1 h2
    exact Or.inl ⟨h1.symm, _, h2.symm⟩
  · rename_i sid hsid
    split at h
    · injection h with h1 h2
      exact Or.inl ⟨h1.symm, _, h2.symm⟩
    · split at h
      · injection h with h1 h2
        exact Or.inl ⟨h1.symm, _, h2.symm⟩
      · split at h
        · injection h with h1 h2
          exact Or.inl ⟨h1.symm, _, h2.symm⟩
        · dsimp only at h
          injection h with ha hb
          exact Or.inr ⟨_, ha.symm, hb.symm⟩

lemma deletePurchaseOrder_cases (db : DB) (poId userId : Nat) (db' : DB)
    (r : Except AppError Unit) (h : deletePurchaseOrder db poId userId = (db', r)) :
    (db' = db ∧ ∃ e, r = .error e) ∨
    (db' = { db with purchaseOrders :=
        db.purchaseOrders.filter fun p => !(p.poId == poId && p.userId == userId) } ∧
      r = Except.ok ()) := by
  unfold deletePurchaseOrder at h
  split at h
  · injection h with h1 h2
    exact Or.inl ⟨h1.symm, _, h2.symm⟩
  · injection h with h1 h2
    exact Or.inr ⟨h1.symm, h2.symm⟩

/-- The cancelled order document `cancelOrder` saves. -/
def cancelledO (o : Order) (req : CancelOrderReq) : Order :=
  { o with status := OrderStatus.cancelled,
           cancellationReason := some (req.cancellationReason.getD "Cancelled by user") }

/-- Forward computation of a successful `deleteSalesOrder` run. -/
lemma deleteSalesOrder_build {db : DB} {soId userId : Nat} {so : SalesOrder}
    (hf : findSO db.salesOrders soId userId = some so) :
    deleteSalesOrder db soId userId =
      ({ db with invs := incrementAll db.invs (so.items.map toOrderItem),
                 salesOrders := db.salesOrders.filter fun s => !(s.soId == soId) },
        .ok ()) := by
  unfold deleteSalesOrder
  rw [hf]

lemma updateSOCheckItems_ok_validate {db : DB} {req : UpdateSalesOrderReq}
    {so so2 : SalesOrder} (h : updateSOCheckItems db req so = .ok so2)
    {its : List SalesItem} (hits : req.items = some its) (hne : its.isEmpty = false) :
    validateUpdateItems db.invs its = .ok () := by
  unfold updateSOCheckItems at h
  rw [hits] at h
  dsimp only at h
  rw [if_neg (show ¬ its.isEmpty = true by simp [hne])] at h
  split at h
  · simp at h
  · rename_i u hval
    rw [hval]

lemma updateSOCheckDiscount_ok_validate {db : DB} {req : UpdateSalesOrderReq}
    {so so2 : SalesOrder} (h : updateSOCheckDiscount db req so = .ok so2)
    {its : List SalesItem} (hits : req.items = some its) (hne : its.isEmpty = false) :
    validateUpdateItems db.invs its = .ok () := by
  unfold updateSOCheckDiscount at h
  split at h
  · split at h
    · simp at h
    · exact updateSOCheckItems_ok_validate h hits hne
  · exact updateSOCheckItems_ok_validate h hits hne

lemma updateSOCheck_ok_validate {db : DB} {req : UpdateSalesOrderReq}
    {so so2 : SalesOrder} (h : updateSOCheck db req so = .ok so2)
    {its : List SalesItem} (hits : req.items = some its) (hne : its.isEmpty = false) :
    validateUpdateItems db.invs its = .ok () := by
  unfold updateSOCheck at h
  split at h
  · split at h
    · simp at h
    · exact updateSOCheckDiscount_ok_validate h hits hne
  · exact updateSOCheckDiscount_ok_validate h hits hne

/-- `updateSalesOrder` never changes the inventory collection: the only
branch that writes stock (the reversal-then-decrement sequence for new
items) sits behind the always-erroring item validation loop, so it is dead
code. -/
lemma updateSalesOrder_invs_eq (db : DB) (req : UpdateSalesOrderReq) (db' : DB)
    (r : Except AppError SalesOrder) (h : updateSalesOrder db req = (db', r)) :
    db'.invs = db.invs := by
  unfold updateSalesOrder at h
  split at h
  · injection h with h1 h2
    subst h1
    rfl
  · rename_i so hf
    split at h
    · injection h with h1 h2
      subst h1
      rfl
    · rename_i so2 hchk
      split at h
      · rename_i its hits
        split at h
        · unfold commitSO at h
          injection h with h1 h2
          subst h1
          rfl
        · rename_i hne
          exfalso
          have hval := updateSOCheck_ok_validate hchk hits (by
            revert hne; cases its.isEmpty <;> simp)
          cases its with
          | nil => exact hne rfl
          | cons a rest => exact validateUpdateItems_cons_err hval
      · unfold commitSO at h
        injection h with h1 h2
        subst h1
        rfl

/-- A rejected `updateSalesOrder` leaves the database exactly as it was:
the insufficient-stock rejection that the source text places after the
stock-reversal writes is unreachable, because the item validation loop
before the reversal always errors. -/
lemma updateSalesOrder_error_eq (db : DB) (req : UpdateSalesOrderReq) (db' : DB)
    (e : AppError) (h : updateSalesOrder db req = (db', .error e)) :
    db' = db := by
  unfold updateSalesOrder at h
  split at h
  · injection h with h1 h2
    exact h1.symm
  · rename_i so hf
    split at h
    · injection h with h1 h2
      exact h1.symm
    · rename_i so2 hchk
      split at h
      · rename_i its hits
        split at h
        · unfold commitSO at h
          injection h with h1 h2
          cases h2
        · rename_i hne
          exfalso
          have hval := updateSOCheck_ok_validate hchk hits (by
            revert hne; cases its.isEmpty <;> simp)
          cases its with
          | nil => exact hne rfl
          | cons a rest => exact validateUpdateItems_cons_err hval
      · unfold commitSO at h
        injection h with h1 h2
        cases h2

/-! ## C2 and C3 -/

/-- C2 (amended): no order or sales order can ever be created — the
per-item availability guard reads the `isActive` path absent from the
inventory schema and always throws before any stock write — so the
create-then-cancel round trip is unrealizable.  The restore half is real:
cancelling a stored order, or deleting a stored sales order, increments each
referenced inventory's stock by exactly the stored line-item quantity. -/
theorem C2_create_cancel_roundtrip :
    (∀ db req db' o, createOrder db req = (db', Except.ok o) → False) ∧
    (∀ db req db' so, createSalesOrder db req = (db', Except.ok so) → False) ∧
    (∀ db req db' o', cancelOrder db req = (db', Except.ok o') →
      ∀ x, stockAt db'.invs x = (stockAt db.invs x).map (· + qtySum o'.items x)) ∧
    (∀ db i u so db', findSO db.salesOrders i u = some so →
      deleteSalesOrder db i u = (db', Except.ok ()) →
      ∀ x, stockAt db'.invs x =
        (stockAt db.invs x).map (· + qtySum (so.items.map toOrderItem) x)) := by
  refine ⟨?_, ?_, ?_, ?_⟩
  · exact fun db req db' o h => createOrder_never_ok db req db' o h
  · exact fun db req db' so h => createSalesOrder_never_ok db req db' so h
  · intro db req db' o' h
    obtain ⟨o, hf, -, -, -, -, -, hitems, hdb'⟩ := cancelOrder_ok h
    subst hdb'
    intro x
    rw [hitems]
    exact stockAt_incrementAll o.items db.invs x
  · intro db i u so db' hf h
    have hbuild := deleteSalesOrder_build hf
    have hpair := hbuild.symm.trans h
    injection hpair with h1 h2
    subst h1
    intro x
    exact stockAt_incrementAll (so.items.map toOrderItem) db.invs x

/-- C3 (amended): the create/cancel lifecycle moves stock for orders and
sales orders — creation subtracts the summed ordered quantity per inventory,
cancel/delete adds it back — while purchase-order creation and deletion
perform no inventory-stock update at all. -/
theorem C3_lifecycle_per_entity :
    (∀ db req db1 o, createOrder db req = (db1, Except.ok o) →
      ∀ x, stockAt db1.invs x = (stockAt db.invs x).map (· - qtySum req.items x)) ∧
    (∀ db req db' o', cancelOrder db req = (db', Except.ok o') →
      ∃ o, findOrder db.orders req.orderId = some o ∧
        ∀ x, stockAt db'.invs x = (stockAt db.invs x).map (· + qtySum o.items x)) ∧
    (∀ db req db1 so, createSalesOrder db req = (db1, Except.ok so) →
      ∀ x, stockAt db1.invs x =
        (stockAt db.invs x).map (· - qtySum (req.items.map toOrderItem) x)) ∧
    (∀ db i u db', deleteSalesOrder db i u = (db', Except.ok ()) →
      ∃ so, findSO db.salesOrders i u = some so ∧
        ∀ x, stockAt db'.invs x =
          (stockAt db.invs x).map (· + qtySum (so.items.map toOrderItem) x)) ∧
    (∀ db req db' r, createPurchaseOrder db req = (db', r) → db'.invs = db.invs) ∧
    (∀ db i u db' r, deletePurchaseOrder db i u = (db', r) → db'.invs = db.invs) := by
  refine ⟨?_, ?_, ?_, ?_, ?_, ?_⟩
  · intro db req db1 o h
    rcases createOrder_cases db req db1 (Except.ok o) h with ⟨-, e, hbad⟩ |
      ⟨uid, total, -, -, hdb1, -⟩
    · cases hbad
    · subst hdb1
      exact fun x => stockAt_decrementAll req.items db.invs x
  · intro db req db' o' h
    obtain ⟨o, hf, -, -, -, -, -, -, hdb'⟩ := cancelOrder_ok h
    subst hdb'
    exact ⟨o, hf, fun x => stockAt_incrementAll o.items db.invs x⟩
  · intro db req db1 so h
    rcases createSalesOrder_cases db req db1 (Except.ok so) h with ⟨-, e, hbad⟩ |
      ⟨cid, -, -, hdb1, -⟩
    · cases hbad
    · subst hdb1
      exact fun x => stockAt_decrementAll (req.items.map toOrderItem) db.invs x
  · intro db i u db' h
    rcases deleteSalesOrder_cases db i u db' (Except.ok ()) h with ⟨-, e, hbad⟩ |
      ⟨so, hf, hdb', -⟩
    · cases hbad
    · subst hdb'
      exact ⟨so, hf, fun x => stockAt_incrementAll (so.items.map toOrderItem) db.invs x⟩
  · intro db req db' r h
    rcases createPurchaseOrder_cases db req db' r h with ⟨hdb, -⟩ | ⟨po, hdb, -⟩
    · rw [hdb]
    · rw [hdb]
  · intro db i u db' r h
    rcases deletePurchaseOrder_cases db i u db' r h with ⟨hdb, -⟩ | ⟨hdb, -⟩
    · rw [hdb]
    · rw [hdb]

/-- The C3 counterexample database: one inventory with stock 5. -/
def exDB3 : DB := mkDB [sampleInv 1 10 5] [] [] [] [] 2

/-- The C3 counterexample request: a purchase order for 2 units of
inventory 1. -/
def exReq3 : CreatePurchaseOrderReq := ⟨1, some 1, [⟨1, 2, 10⟩], 0, .pending, none⟩

/-- Counterexample for C3 as stated: creating a purchase order succeeds yet
leaves the inventory collection — and in particular the stock of the
referenced inventory, still 5 — completely unchanged, contradicting the
claim that creation decrements the referenced stocks for every Order-like
entity. -/
theorem C3_counterexample :
    (createPurchaseOrder exDB3 exReq3).2.isOk = true ∧
    (createPurchaseOrder exDB3 exReq3).1.invs = exDB3.invs ∧
    stockAt exDB3.invs 1 = some 5 :=
  ⟨rfl, rfl, rfl⟩

/-- A stored sales order for 2 units of inventory 1, used by the C3
witness. -/
def exSO3 : SalesOrder := ⟨1, 1, 1, [⟨1, 2, 10⟩], 20, 0⟩

/-- The C3 witness database: inventory 1 at stock 3 and the stored sales
order. -/
def exDB3b : DB := mkDB [sampleInv 1 10 3] [] [exSO3] [] [] 2

/-- Witness for C3: purchase-order creation leaves the inventories
untouched, and deleting a stored sales order for 2 units raises the stock
from 3 back to 5. -/
theorem C3_lifecycle_per_entity_witness :
    (createPurchaseOrder exDB3 exReq3).1.invs = exDB3.invs ∧
    stockAt (deleteSalesOrder exDB3b 1 1).1.invs 1 = some 5 := by
  constructor
  · exact C3_lifecycle_per_entity.2.2.2.2.1 exDB3 exReq3
      (createPurchaseOrder exDB3 exReq3).1 (createPurchaseOrder exDB3 exReq3).2 rfl
  · obtain ⟨so, hf, hst⟩ := C3_lifecycle_per_entity.2.2.2.1 exDB3b 1 1
      (deleteSalesOrder exDB3b 1 1).1 rfl
    have hso : so = exSO3 := by
      have : findSO exDB3b.salesOrders 1 1 = some exSO3 := rfl
      rw [this] at hf
      injection hf with h
      exact h.symm
    subst hso
    rw [hst 1]
    decide

/-- The C2 counterexample database: inventory 1 at stock 5. -/
def exDBs2 : DB := mkDB [sampleInv 1 10 5] [] [] [] [] 2

/-- The C2 counterexample request: a sales order for 2 units of
inventory 1 — the spec's own example. -/
def exReqS2 : CreateSalesOrderReq := ⟨1, some 1, [⟨1, 2, 10⟩], 0⟩

/-- Counterexample for C2 as stated: the spec's example (create a sales
order for 2 units at stock 5, stock becomes 3) fails in the code — the
request is rejected with the 400 is-not-active error before any write, and
the stock stays 5. -/
theorem C2_counterexample :
    createSalesOrder exDBs2 exReqS2 =
      (exDBs2, Except.error ⟨"Inventory item is not active", 400⟩) ∧
    stockAt exDBs2.invs 1 = some 5 :=
  ⟨rfl, rfl⟩

/-- A stored sales order for 2 units of inventory 1, used by the C2
witness. -/
def soC2 : SalesOrder := ⟨1, 1, 1, [⟨1, 2, 10⟩], 20, 0⟩

/-- The C2 witness database: inventory 1 at stock 3 plus the stored sales
order. -/
def exDBc2 : DB := mkDB [sampleInv 1 10 3] [] [soC2] [] [] 2

/-- Witness for C2: deleting the stored sales order for 2 units raises the
stock from 3 to 5 — the restore half of the round trip. -/
theorem C2_create_cancel_roundtrip_witness :
    stockAt (deleteSalesOrder exDBc2 1 1).1.invs 1 = some 5 := by
  have h := C2_create_cancel_roundtrip.2.2.2 exDBc2 1 1 soC2
    (deleteSalesOrder exDBc2 1 1).1 rfl rfl 1
  rw [h]
  decide

/-- The C5 witness database: two inventories with distinct triples
(1,1,1) and (2,1,1). -/
def exDB5 : DB :=
  mkDB [⟨1, 1, 1, 1, 10, 5, "A", "A", []⟩, ⟨2, 2, 1, 1, 10, 5, "B", "B", []⟩]
    [] [] [] [] 3

/-- The C5 witness create request: the triple (1,1,1) already in use. -/
def exReqC5 : CreateInventoryReq := ⟨some 1, some 10, some 1, some 1, some 5, "C", "C", []⟩

/-- The C5 witness update request: move inventory 2 onto the used triple
(1,1,1). -/
def exReqU5 : UpdateInventoryReq := ⟨2, some 1, none, some 1, some 1, none, none⟩

/-- Witness for C5: both the duplicate create and the duplicate update are
rejected on a concrete store, and triple-uniqueness is preserved. -/
theorem C5_inventory_triple_unique_witness :
    uniqueTriples exDB5.invs ∧
    (createInventory exDB5 exReqC5).2 = Except.error
      ⟨"Inventory item with this combination of item, size, and color already exists", 400⟩ ∧
    uniqueTriples (createInventory exDB5 exReqC5).1.invs ∧
    (updateInventory exDB5 exReqU5).2 = Except.error
      ⟨"Inventory item with this combination of item, size, and color already exists", 400⟩ ∧
    uniqueTriples (updateInventory exDB5 exReqU5).1.invs :=
  ⟨by decide, rfl,
    C5_inventory_triple_unique.1 exDB5 exReqC5 _ _ rfl (by decide),
    rfl,
    C5_inventory_triple_unique.2.1 exDB5 exReqU5 _ _ (by decide) rfl (by decide)⟩

/-! ## Cart and stock-endpoint destructuring -/

lemma addToCart_cases (db : DB) (req : AddToCartReq) (db' : DB) (r : Except AppError Cart)
    (h : addToCart db req = (db', r)) :
    (db' = db ∧ ∃ e, r = .error e) ∨
    ∃ c, db' = { db with carts := saveCart db.carts c } ∧ r = .ok c := by
  unfold addToCart at h
  split at h
  · injection h with h1 h2; exact Or.inl ⟨h1.symm, _, h2.symm⟩
  · injection h with h1 h2; exact Or.inl ⟨h1.symm, _, h2.symm⟩
  · rename_i invId qty
    split at h
    · injection h with h1 h2; exact Or.inl ⟨h1.symm, _, h2.symm⟩
    · split at h
      · injection h with h1 h2; exact Or.inl ⟨h1.symm, _, h2.symm⟩
      · split at h
        · injection h with h1 h2; exact Or.inl ⟨h1.symm, _, h2.symm⟩
        · rename_i inv hinv
          split at h
          · injection h with h1 h2; exact Or.inl ⟨h1.symm, _, h2.symm⟩
          · split at h
            · injection h with h1 h2; exact Or.inl ⟨h1.symm, _, h2.symm⟩
            · dsimp only at h
              split at h
              · rename_i existing hex
                split at h
                · injection h with h1 h2; exact Or.inl ⟨h1.symm, _, h2.symm⟩
                · injection h with h1 h2
                  exact Or.inr ⟨_, h1.symm, h2.symm⟩
              · injection h with h1 h2
                exact Or.inr ⟨_, h1.symm, h2.symm⟩

lemma bulkAddToCart_cases (db : DB) (req : BulkAddReq) (db' : DB) (r : Except AppError Cart)
    (h : bulkAddToCart db req = (db', r)) :
    (db' = db ∧ ∃ e, r = .error e) ∨
    ∃ c, db' = { db with carts := saveCart db.carts c } ∧ r = .ok c := by
  unfold bulkAddToCart at h
  split at h
  · injection h with h1 h2; exact Or.inl ⟨h1.symm, _, h2.symm⟩
  · split at h
    · injection h with h1 h2; exact Or.inl ⟨h1.symm, _, h2.symm⟩
    · split at h
      · injection h with h1 h2; exact Or.inl ⟨h1.symm, _, h2.symm⟩
      · dsimp only at h
        split at h
        · injection h with h1 h2; exact Or.inl ⟨h1.symm, _, h2.symm⟩
        · rename_i items' hmerge
          injection h with h1 h2
          exact Or.inr ⟨_, h1.symm, h2.symm⟩

lemma updateCartItem_cases (db : DB) (req : UpdateCartItemReq) (db' : DB)
    (r : Except AppError Cart) (h : updateCartItem db req = (db', r)) :
    (db' = db ∧ ∃ e, r = .error e) ∨
    ∃ c, db' = { db with carts := saveCart db.carts c } ∧ r = .ok c := by
  unfold updateCartItem at h
  split at h
  · injection h with h1 h2; exact Or.inl ⟨h1.symm, _, h2.symm⟩
  · split at h
    · injection h with h1 h2; exact Or.inl ⟨h1.symm, _, h2.symm⟩
    · split at h
      · injection h with h1 h2; exact Or.inl ⟨h1.symm, _, h2.symm⟩
      · rename_i inv hinv
        split at h
        · injection h with h1 h2; exact Or.inl ⟨h1.symm, _, h2.symm⟩
        · split at h
          · injection h with h1 h2; exact Or.inl ⟨h1.symm, _, h2.symm⟩
          · split at h
            · injection h with h1 h2; exact Or.inl ⟨h1.symm, _, h2.symm⟩
            · rename_i cart hcart
              split at h
              · injection h with h1 h2; exact Or.inl ⟨h1.symm, _, h2.symm⟩
              · injection h with h1 h2
                exact Or.inr ⟨_, h1.symm, h2.symm⟩

lemma removeFromCart_cases (db : DB) (u i : Nat) (db' : DB) (r : Except AppError Cart)
    (h : removeFromCart db u i = (db', r)) :
    (db' = db ∧ ∃ e, r = .error e) ∨
    ∃ c, db' = { db with carts := saveCart db.carts c } ∧ r = .ok c := by
  unfold removeFromCart at h
  split at h
  · injection h with h1 h2; exact Or.inl ⟨h1.symm, _, h2.symm⟩
  · rename_i cart hcart
    split at h
    · injection h with h1 h2; exact Or.inl ⟨h1.symm, _, h2.symm⟩
    · injection h with h1 h2
      exact Or.inr ⟨_, h1.symm, h2.symm⟩

lemma clearCart_cases (db : DB) (u : Nat) (db' : DB) (r : Except AppError Cart)
    (h : clearCart db u = (db', r)) :
    (db' = db ∧ ∃ e, r = .error e) ∨
    ∃ c, db' = { db with carts := saveCart db.carts c } ∧ r = .ok c := by
  unfold clearCart at h
  split at h
  · injection h with h1 h2; exact Or.inl ⟨h1.symm, _, h2.symm⟩
  · injection h with h1 h2
    exact Or.inr ⟨_, h1.symm, h2.symm⟩

lemma updateStock_cases (db : DB) (i : Nat) (s : Option Int) (db' : DB)
    (r : Except AppError Inventory) (h : updateStock db i s = (db', r)) :
    (db' = db ∧ ∃ e, r = .error e) ∨
    ∃ q inv, s = some q ∧ ¬ q < 0 ∧ findInv db.invs i = some inv ∧
      db' = { db with invs := setInv db.invs { inv with stock := q } } ∧
      r = .ok { inv with stock := q } := by
  unfold updateStock at h
  split at h
  · injection h with h1 h2; exact Or.inl ⟨h1.symm, _, h2.symm⟩
  · rename_i q
    split at h
    · injection h with h1 h2; exact Or.inl ⟨h1.symm, _, h2.symm⟩
    · rename_i hq
      split at h
      · injection h with h1 h2; exact Or.inl ⟨h1.symm, _, h2.symm⟩
      · rename_i inv hf
        injection h with h1 h2
        exact Or.inr ⟨q, inv, rfl, hq, hf, h1.symm, h2.symm⟩

lemma incrementStock_cases (db : DB) (i : Nat) (s : Option Int) (db' : DB)
    (r : Except AppError Inventory) (h : incrementStock db i s = (db', r)) :
    (db' = db ∧ ∃ e, r = .error e) ∨
    ∃ q inv, s = some q ∧ 0 < q ∧ findInv db.invs i = some inv ∧
      db' = { db with invs := setInv db.invs { inv with stock := inv.stock + q } } ∧
      r = .ok { inv with stock := inv.stock + q } := by
  unfold incrementStock at h
  split at h
  · injection h with h1 h2; exact Or.inl ⟨h1.symm, _, h2.symm⟩
  · rename_i q
    split at h
    · injection h with h1 h2; exact Or.inl ⟨h1.symm, _, h2.symm⟩
    · rename_i hq
      split at h
      · injection h with h1 h2; exact Or.inl ⟨h1.symm, _, h2.symm⟩
      · rename_i inv hf
        injection h with h1 h2
        exact Or.inr ⟨q, inv, rfl, by omega, hf, h1.symm, h2.symm⟩

lemma decrementStock_cases (db : DB) (i : Nat) (s : Option Int) (db' : DB)
    (r : Except AppError Inventory) (h : decrementStock db i s = (db', r)) :
    (db' = db ∧ ∃ e, r = .error e) ∨
    ∃ q inv, s = some q ∧ 0 < q ∧ findInv db.invs i = some inv ∧
      ¬ inv.stock - q < 0 ∧
      db' = { db with invs := setInv db.invs { inv with stock := inv.stock - q } } ∧
      r = .ok { inv with stock := inv.stock - q } := by
  unfold decrementStock at h
  split at h
  · injection h with h1 h2; exact Or.inl ⟨h1.symm, _, h2.symm⟩
  · rename_i q
    split at h
    · injection h with h1 h2; exact Or.inl ⟨h1.symm, _, h2.symm⟩
    · rename_i hq
      split at h
      · injection h with h1 h2; exact Or.inl ⟨h1.symm, _, h2.symm⟩
      · rename_i inv hf
        split at h
        · injection h with h1 h2; exact Or.inl ⟨h1.symm, _, h2.symm⟩
        · rename_i hs
          injection h with h1 h2
          exact Or.inr ⟨q, inv, rfl, by omega, hf, hs, h1.symm, h2.symm⟩

lemma deleteInventory_cases (db : DB) (i : Nat) (db' : DB) (r : Except AppError Unit)
    (h : deleteInventory db i = (db', r)) :
    (db' = db ∧ ∃ e, r = .error e) ∨
    (db' = { db with invs := db.invs.filter fun v => !(v.invId == i) } ∧ r = .ok ()) := by
  unfold deleteInventory at h
  split at h
  · injection h with h1 h2; exact Or.inl ⟨h1.symm, _, h2.symm⟩
  · injection h with h1 h2
    exact Or.inr ⟨h1.symm, h2.symm⟩

lemma cancelOrder_error (db : DB) (req : CancelOrderReq) (db' : DB) (e : AppError)
    (h : cancelOrder db req = (db', .error e)) : db' = db := by
  unfold cancelOrder at h
  split at h
  · injection h with h1 h2; exact h1.symm
  · rename_i o hf
    split at h
    · injection h with h1 h2; exact h1.symm
    · split at h
      · injection h with h1 h2; exact h1.symm
      · dsimp only at h
        split at h
        · injection h with h1 h2; cases h2
        · injection h with h1 h2; cases h2

lemma updateOrderStatus_error (db : DB) (req : UpdateOrderStatusReq) (db' : DB)
    (e : AppError) (h : updateOrderStatus db req = (db', .error e)) : db' = db := by
  unfold updateOrderStatus at h
  split at h
  · injection h with h1 h2; exact h1.symm
  · injection h with h1 h2; cases h2

lemma findSO_eq_some {sos : List SalesOrder} {i u : Nat} {so : SalesOrder}
    (h : findSO sos i u = some so) : so.soId = i ∧ so.userId = u ∧ so ∈ sos := by
  unfold findSO at h
  have h1 := List.find?_some h
  have h2 := List.mem_of_find?_eq_some h
  simp only [Bool.and_eq_true, beq_iff_eq] at h1
  exact ⟨h1.1, h1.2, h2⟩

/-! ## C4 -/

/-- C4: every embedded handler is check-then-write — an error outcome
leaves the database exactly as it was.  This includes `updateSalesOrder`:
the insufficient-stock rejection that the source text places after the
stock-reversal writes is dead code, because the item validation loop that
precedes the reversal always throws. -/
theorem C4_no_write_on_error :
    (∀ db req db' e, createOrder db req = (db', Except.error e) → db' = db) ∧
    (∀ db req db' e, cancelOrder db req = (db', Except.error e) → db' = db) ∧
    (∀ db req db' e, updateOrderStatus db req = (db', Except.error e) → db' = db) ∧
    (∀ db req db' e, createSalesOrder db req = (db', Except.error e) → db' = db) ∧
    (∀ db i u db' e, deleteSalesOrder db i u = (db', Except.error e) → db' = db) ∧
    (∀ db req db' e, createPurchaseOrder db req = (db', Except.error e) → db' = db) ∧
    (∀ db i u db' e, deletePurchaseOrder db i u = (db', Except.error e) → db' = db) ∧
    (∀ db req db' e, createInventory db req = (db', Except.error e) → db' = db) ∧
    (∀ db req db' e, updateInventory db req = (db', Except.error e) → db' = db) ∧
    (∀ db i s db' e, updateStock db i s = (db', Except.error e) → db' = db) ∧
    (∀ db i q db' e, incrementStock db i q = (db', Except.error e) → db' = db) ∧
    (∀ db i q db' e, decrementStock db i q = (db', Except.error e) → db' = db) ∧
    (∀ db i db' e, deleteInventory db i = (db', Except.error e) → db' = db) ∧
    (∀ db req db' e, addToCart db req = (db', Except.error e) → db' = db) ∧
    (∀ db req db' e, bulkAddToCart db req = (db', Except.error e) → db' = db) ∧
    (∀ db req db' e, updateCartItem db req = (db', Except.error e) → db' = db) ∧
    (∀ db u i db' e, removeFromCart db u i = (db', Except.error e) → db' = db) ∧
    (∀ db u db' e, clearCart db u = (db', Except.error e) → db' = db) ∧
    (∀ db req db' e, updateSalesOrder db req = (db', Except.error e) → db' = db) := by
  refine ⟨?_, ?_, ?_, ?_, ?_, ?_, ?_, ?_, ?_, ?_, ?_, ?_, ?_, ?_, ?_, ?_, ?_, ?_, ?_⟩
  · intro db req db' e h
    rcases createOrder_cases db req db' (Except.error e) h with ⟨hdb, -⟩ | ⟨_, _, _, _, _, hbad⟩
    · exact hdb
    · cases hbad
  · exact fun db req db' e h => cancelOrder_error db req db' e h
  · exact fun db req db' e h => updateOrderStatus_error db req db' e h
  · intro db req db' e h
    rcases createSalesOrder_cases db req db' (Except.error e) h with ⟨hdb, -⟩ | ⟨_, _, _, _, hbad⟩
    · exact hdb
    · cases hbad
  · intro db i u db' e h
    rcases deleteSalesOrder_cases db i u db' (Except.error e) h with ⟨hdb, -⟩ | ⟨_, _, _, hbad⟩
    · exact hdb
    · cases hbad
  · intro db req db' e h
    rcases createPurchaseOrder_cases db req db' (Except.error e) h with ⟨hdb, -⟩ | ⟨_, _, hbad⟩
    · exact hdb
    · cases hbad
  · intro db i u db' e h
    rcases deletePurchaseOrder_cases db i u db' (Except.error e) h with ⟨hdb, -⟩ | ⟨_, hbad⟩
    · exact hdb
    · cases hbad
  · intro db req db' e h
    rcases createInventory_cases db req db' (Except.error e) h with ⟨hdb, -⟩ |
      ⟨_, _, _, _, _, _, _, _, _, _, _, _, hbad, _⟩
    · exact hdb
    · cases hbad
  · intro db req db' e h
    rcases updateInventory_cases db req db' (Except.error e) h with ⟨hdb, -⟩ | ⟨_, _, _, hbad, _, _⟩
    · exact hdb
    · cases hbad
  · intro db i s db' e h
    rcases updateStock_cases db i s db' (Except.error e) h with ⟨hdb, -⟩ | ⟨_, _, _, _, _, _, hbad⟩
    · exact hdb
    · cases hbad
  · intro db i q db' e h
    rcases incrementStock_cases db i q db' (Except.error e) h with ⟨hdb, -⟩ | ⟨_, _, _, _, _, _, hbad⟩
    · exact hdb
    · cases hbad
  · intro db i q db' e h
    rcases decrementStock_cases db i q db' (Except.error e) h with ⟨hdb, -⟩ |
      ⟨_, _, _, _, _, _, _, hbad⟩
    · exact hdb
    · cases hbad
  · intro db i db' e h
    rcases deleteInventory_cases db i db' (Except.error e) h with ⟨hdb, -⟩ | ⟨_, hbad⟩
    · exact hdb
    · cases hbad
  · intro db req db' e h
    rcases addToCart_cases db req db' (Except.error e) h with ⟨hdb, -⟩ | ⟨_, _, hbad⟩
    · exact hdb
    · cases hbad
  · intro db req db' e h
    rcases bulkAddToCart_cases db req db' (Except.error e) h with ⟨hdb, -⟩ | ⟨_, _, hbad⟩
    · exact hdb
    · cases hbad
  · intro db req db' e h
    rcases updateCartItem_cases db req db' (Except.error e) h with ⟨hdb, -⟩ | ⟨_, _, hbad⟩
    · exact hdb
    · cases hbad
  · intro db u i db' e h
    rcases removeFromCart_cases db u i db' (Except.error e) h with ⟨hdb, -⟩ | ⟨_, _, hbad⟩
    · exact hdb
    · cases hbad
  · intro db u db' e h
    rcases clearCart_cases db u db' (Except.error e) h with ⟨hdb, -⟩ | ⟨_, _, hbad⟩
    · exact hdb
    · cases hbad
  · exact fun db req db' e h => updateSalesOrder_error_eq db req db' e h

/-- A database with a single inventory at stock 10, used to witness C4. -/
def exDB4w : DB := mkDB [sampleInv 1 10 10] [] [] [] [] 2

/-- Witness for C4: decrementing 15 from stock 10 is rejected, and by the
theorem the database after the rejected call equals the original database. -/
theorem C4_no_write_on_error_witness :
    (decrementStock exDB4w 1 (some 15)).1 = exDB4w :=
  C4_no_write_on_error.2.2.2.2.2.2.2.2.2.2.2.1 exDB4w 1 (some 15)
    (decrementStock exDB4w 1 (some 15)).1
    ⟨"Cannot decrement stock. Insufficient stock.", 400⟩ rfl

/-! ## C1 -/

/-- The dedicated decrement endpoint rejects a quantity above the current
stock and returns the database unchanged. -/
lemma decrementStock_rejects (db : DB) (i : Nat) (q : Int) (inv : Inventory)
    (hf : findInv db.invs i = some inv) (hq : 0 < q) (hlt : inv.stock < q) :
    decrementStock db i (some q) =
      (db, Except.error ⟨"Cannot decrement stock. Insufficient stock.", 400⟩) := by
  unfold decrementStock
  dsimp only
  rw [if_neg (show ¬ q ≤ 0 by omega), hf]
  dsimp only
  rw [if_pos (show inv.stock - q < 0 by omega)]

/-- A handler run that leaves the inventory collection untouched preserves
non-negative stocks. -/
lemma stocksNonneg_of_invs_eq {db db' : DB} (h : db'.invs = db.invs)
    (hpos : stocksNonneg db) : stocksNonneg db' :=
  fun v hv => hpos v (h ▸ hv)

lemma nonnegAfter_createOrder (db : DB) (req : CreateOrderReq) (db' : DB)
    (r : Except AppError Order) (hpos : stocksNonneg db)
    (h : createOrder db req = (db', r)) : stocksNonneg db' := by
  rcases createOrder_cases db req db' r h with ⟨hdb, _⟩ | ⟨uid, total, _, _, _, hok⟩
  · subst hdb; exact hpos
  · subst hok
    exact (createOrder_never_ok db req db' _ h).elim

lemma nonnegAfter_cancelOrder (db : DB) (req : CancelOrderReq) (db' : DB)
    (r : Except AppError Order) (hWF : WF db) (hpos : stocksNonneg db)
    (h : cancelOrder db req = (db', r)) : stocksNonneg db' := by
  cases r with
  | error e => rw [cancelOrder_error db req db' e h]; exact hpos
  | ok o' =>
    obtain ⟨o, hf, -, -, -, -, -, -, hdb⟩ := cancelOrder_ok h
    obtain ⟨-, ho⟩ := findOrder_eq_some hf
    subst hdb
    have hq : ∀ it ∈ o.items, 0 ≤ it.qty := by
      intro it hit
      have := hWF.2.2.2.2.2.1 o ho it hit
      omega
    intro v hv
    exact incrementAll_nonneg o.items db.invs hq hpos v hv

lemma updateOrderStatus_invs (db : DB) (req : UpdateOrderStatusReq) (db' : DB)
    (r : Except AppError Order) (h : updateOrderStatus db req = (db', r)) :
    db'.invs = db.invs := by
  unfold updateOrderStatus at h
  split at h
  all_goals (injection h with h1 h2; subst h1; rfl)

lemma nonnegAfter_createSalesOrder (db : DB) (req : CreateSalesOrderReq) (db' : DB)
    (r : Except AppError SalesOrder) (hpos : stocksNonneg db)
    (h : createSalesOrder db req = (db', r)) : stocksNonneg db' := by
  rcases createSalesOrder_cases db req db' r h with ⟨hdb, _⟩ | ⟨cid, _, _, _, hok⟩
  · subst hdb; exact hpos
  · subst hok
    exact (createSalesOrder_never_ok db req db' _ h).elim

lemma nonnegAfter_updateSalesOrder (db : DB) (req : UpdateSalesOrderReq) (db' : DB)
    (r : Except AppError SalesOrder) (hpos : stocksNonneg db)
    (h : updateSalesOrder db req = (db', r)) : stocksNonneg db' :=
  stocksNonneg_of_invs_eq (updateSalesOrder_invs_eq db req db' r h) hpos

lemma nonnegAfter_deleteSalesOrder (db : DB) (i u : Nat) (db' : DB)
    (r : Except AppError Unit) (hWF : WF db) (hpos : stocksNonneg db)
    (h : deleteSalesOrder db i u = (db', r)) : stocksNonneg db' := by
  rcases deleteSalesOrder_cases db i u db' r h with ⟨hdb, _⟩ | ⟨so, hf, hdb, _⟩
  · subst hdb; exact hpos
  · obtain ⟨-, -, hso⟩ := findSO_eq_some hf
    subst hdb
    have hq : ∀ it ∈ so.items.map toOrderItem, 0 ≤ it.qty := by
      intro it hit
      obtain ⟨s, hs, hse⟩ := List.mem_map.mp hit
      subst hse
      have := hWF.2.2.2.2.2.2 so hso s hs
      show (0 : Int) ≤ s.qty
      omega
    intro v hv
    exact incrementAll_nonneg _ _ hq hpos v hv

lemma nonnegAfter_createInventory (db : DB) (req : CreateInventoryReq) (db' : DB)
    (r : Except AppError Inventory) (hpos : stocksNonneg db)
    (h : createInventory db req = (db', r)) : stocksNonneg db' := by
  rcases createInventory_cases db req db' r h with ⟨hdb, _⟩ |
    ⟨it, price, sz, cl, stock, _, _, _, _, _, _, hdb, _, hstock⟩
  · subst hdb; exact hpos
  · subst hdb
    intro v hv
    have hv' : v ∈ db.invs ++
        [⟨db.nextId, it, sz, cl, price, stock, req.sku, req.barcode, req.tags⟩] := hv
    rcases List.mem_append.mp hv' with hm | hm
    · exact hpos v hm
    · have hveq : v = ⟨db.nextId, it, sz, cl, price, stock,
          req.sku, req.barcode, req.tags⟩ := by simpa using hm
      subst hveq
      show (0 : Int) ≤ stock
      omega

lemma nonnegAfter_updateInventory (db : DB) (req : UpdateInventoryReq) (db' : DB)
    (r : Except AppError Inventory) (hpos : stocksNonneg db)
    (h : updateInventory db req = (db', r)) : stocksNonneg db' := by
  rcases updateInventory_cases db req db' r h with ⟨hdb, _⟩ | ⟨inv, hf, hdb, _, _, hstock⟩
  · subst hdb; exact hpos
  · subst hdb
    intro v hv
    have hv' : v ∈ setInv db.invs (updInv req inv) := hv
    rcases mem_setInv hv' with hveq | hm
    · subst hveq
      show (0 : Int) ≤ req.stock.getD inv.stock
      omega
    · exact hpos v hm

lemma nonnegAfter_updateStock (db : DB) (i : Nat) (s : Option Int) (db' : DB)
    (r : Except AppError Inventory) (hpos : stocksNonneg db)
    (h : updateStock db i s = (db', r)) : stocksNonneg db' := by
  rcases updateStock_cases db i s db' r h with ⟨hdb, _⟩ | ⟨q, inv, _, hq, hf, hdb, _⟩
  · subst hdb; exact hpos
  · subst hdb
    intro v hv
    have hv' : v ∈ setInv db.invs { inv with stock := q } := hv
    rcases mem_setInv hv' with hveq | hm
    · subst hveq
      show (0 : Int) ≤ q
      omega
    · exact hpos v hm

lemma nonnegAfter_incrementStock (db : DB) (i : Nat) (s : Option Int) (db' : DB)
    (r : Except AppError Inventory) (hpos : stocksNonneg db)
    (h : incrementStock db i s = (db', r)) : stocksNonneg db' := by
  rcases incrementStock_cases db i s db' r h with ⟨hdb, _⟩ | ⟨q, inv, _, hq, hf, hdb, _⟩
  · subst hdb; exact hpos
  · have h0 := hpos inv (findInv_eq_some hf).2
    subst hdb
    intro v hv
    have hv' : v ∈ setInv db.invs { inv with stock := inv.stock + q } := hv
    rcases mem_setInv hv' with hveq | hm
    · subst hveq
      show (0 : Int) ≤ inv.stock + q
      omega
    · exact hpos v hm

lemma nonnegAfter_decrementStock (db : DB) (i : Nat) (s : Option Int) (db' : DB)
    (r : Except AppError Inventory) (hpos : stocksNonneg db)
    (h : decrementStock db i s = (db', r)) : stocksNonneg db' := by
  rcases decrementStock_cases db i s db' r h with ⟨hdb, _⟩ | ⟨q, inv, _, _, hf, hs, hdb, _⟩
  · subst hdb; exact hpos
  · subst hdb
    intro v hv
    have hv' : v ∈ setInv db.invs { inv with stock := inv.stock - q } := hv
    rcases mem_setInv hv' with hveq | hm
    · subst hveq
      show (0 : Int) ≤ inv.stock - q
      omega
    · exact hpos v hm

lemma nonnegAfter_deleteInventory (db : DB) (i : Nat) (db' : DB)
    (r : Except AppError Unit) (hpos : stocksNonneg db)
    (h : deleteInventory db i = (db', r)) : stocksNonneg db' := by
  rcases deleteInventory_cases db i db' r h with ⟨hdb, _⟩ | ⟨hdb, _⟩
  · subst hdb; exact hpos
  · subst hdb
    intro v hv
    have hv' : v ∈ db.invs.filter fun w => !(w.invId == i) := hv
    exact hpos v (List.mem_of_mem_filter hv')

/-- C1: every stock-decrementing endpoint rejects a request whose quantity
exceeds the current stock — `decrementStock` with the 400 insufficient-stock
error and the state unchanged, while `createOrder` and `createSalesOrder`
reject every request outright at the availability guard — and every handler
carries a well-formed database with non-negative stocks to a database with
non-negative stocks: no operation can leave any inventory's stock below
zero. -/
theorem C1_stock_never_negative :
    (∀ db i q inv, findInv db.invs i = some inv → 0 < q → inv.stock < q →
      decrementStock db i (some q) =
        (db, Except.error ⟨"Cannot decrement stock. Insufficient stock.", 400⟩)) ∧
    (∀ db, WF db → stocksNonneg db →
      (∀ req db' r, createOrder db req = (db', r) → stocksNonneg db') ∧
      (∀ req db' r, cancelOrder db req = (db', r) → stocksNonneg db') ∧
      (∀ req db' r, updateOrderStatus db req = (db', r) → stocksNonneg db') ∧
      (∀ req db' r, createSalesOrder db req = (db', r) → stocksNonneg db') ∧
      (∀ req db' r, updateSalesOrder db req = (db', r) → stocksNonneg db') ∧
      (∀ i u db' r, deleteSalesOrder db i u = (db', r) → stocksNonneg db') ∧
      (∀ req db' r, createPurchaseOrder db req = (db', r) → stocksNonneg db') ∧
      (∀ i u db' r, deletePurchaseOrder db i u = (db', r) → stocksNonneg db') ∧
      (∀ req db' r, createInventory db req = (db', r) → stocksNonneg db') ∧
      (∀ req db' r, updateInventory db req = (db', r) → stocksNonneg db') ∧
      (∀ i s db' r, updateStock db i s = (db', r) → stocksNonneg db') ∧
      (∀ i s db' r, incrementStock db i s = (db', r) → stocksNonneg db') ∧
      (∀ i s db' r, decrementStock db i s = (db', r) → stocksNonneg db') ∧
      (∀ i db' r, deleteInventory db i = (db', r) → stocksNonneg db') ∧
      (∀ req db' r, addToCart db req = (db', r) → stocksNonneg db') ∧
      (∀ req db' r, bulkAddToCart db req = (db', r) → stocksNonneg db') ∧
      (∀ req db' r, updateCartItem db req = (db', r) → stocksNonneg db') ∧
      (∀ u i db' r, removeFromCart db u i = (db', r) → stocksNonneg db') ∧
      (∀ u db' r, clearCart db u = (db', r) → stocksNonneg db')) := by
  refine ⟨?_, fun db hWF hpos =>
    ⟨?_, ?_, ?_, ?_, ?_, ?_, ?_, ?_, ?_, ?_, ?_, ?_, ?_, ?_, ?_, ?_, ?_, ?_, ?_⟩⟩
  · exact fun db i q inv hf hq hlt => decrementStock_rejects db i q inv hf hq hlt
  · exact fun req db' r h => nonnegAfter_createOrder db req db' r hpos h
  · exact fun req db' r h => nonnegAfter_cancelOrder db req db' r hWF hpos h
  · exact fun req db' r h =>
      stocksNonneg_of_invs_eq (updateOrderStatus_invs db req db' r h) hpos
  · exact fun req db' r h => nonnegAfter_createSalesOrder db req db' r hpos h
  · exact fun req db' r h => nonnegAfter_updateSalesOrder db req db' r hpos h
  · exact fun i u db' r h => nonnegAfter_deleteSalesOrder db i u db' r hWF hpos h
  · intro req db' r h
    rcases createPurchaseOrder_cases db req db' r h with ⟨hdb, _⟩ | ⟨po, hdb, _⟩ <;>
      subst hdb <;> exact hpos
  · intro i u db' r h
    rcases deletePurchaseOrder_cases db i u db' r h with ⟨hdb, _⟩ | ⟨hdb, _⟩ <;>
      subst hdb <;> exact hpos
  · exact fun req db' r h => nonnegAfter_createInventory db req db' r hpos h
  · exact fun req db' r h => nonnegAfter_updateInventory db req db' r hpos h
  · exact fun i s db' r h => nonnegAfter_updateStock db i s db' r hpos h
  · exact fun i s db' r h => nonnegAfter_incrementStock db i s db' r hpos h
  · exact fun i s db' r h => nonnegAfter_decrementStock db i s db' r hpos h
  · exact fun i db' r h => nonnegAfter_deleteInventory db i db' r hpos h
  · intro req db' r h
    rcases addToCart_cases db req db' r h with ⟨hdb, _⟩ | ⟨c, hdb, _⟩ <;>
      subst hdb <;> exact hpos
  · intro req db' r h
    rcases bulkAddToCart_cases db req db' r h with ⟨hdb, _⟩ | ⟨c, hdb, _⟩ <;>
      subst hdb <;> exact hpos
  · intro req db' r h
    rcases updateCartItem_cases db req db' r h with ⟨hdb, _⟩ | ⟨c, hdb, _⟩ <;>
      subst hdb <;> exact hpos
  · intro u i db' r h
    rcases removeFromCart_cases db u i db' r h with ⟨hdb, _⟩ | ⟨c, hdb, _⟩ <;>
      subst hdb <;> exact hpos
  · intro u db' r h
    rcases clearCart_cases db u db' r h with ⟨hdb, _⟩ | ⟨c, hdb, _⟩ <;>
      subst hdb <;> exact hpos

/-- A database with a single inventory at stock 10, used to witness C1. -/
def exDB1d : DB := mkDB [sampleInv 1 10 10] [] [] [] [] 2

/-- Witness for C1: with stock 10, decrementing 15 is rejected with the
400 insufficient-stock error and the database is returned unchanged — the
spec's own example. -/
theorem C1_stock_never_negative_witness :
    decrementStock exDB1d 1 (some 15) =
      (exDB1d, Except.error ⟨"Cannot decrement stock. Insufficient stock.", 400⟩) :=
  C1_stock_never_negative.1 exDB1d 1 15 (sampleInv 1 10 10) rfl (by decide) (by decide)

end FitFive







